import Mathlib

/-!
Verification of GrabPatent's realtime token processor
(`realtime_token_processor.py`).

Python strings are modelled as `List Char`.  Python's `urllib.parse.unquote`
is modelled byte-accurately for well-formed percent-encodings: a maximal run
of `%XX` hex triples is decoded as a UTF-8 byte sequence; invalid bytes decode
to U+FFFD (CPython's `errors="replace"` may merge several invalid bytes into
one replacement character, a detail no claim depends on).  Fallible or
I/O-performing parts of the program (network calls, the browser, the file
system) are modelled as explicit oracle parameters.
-/

/-- Python string model. -/
abbrev PyStr := List Char

/-- Convert a Lean string literal to the Python string model. -/
def pyOf (s : String) : PyStr := s.data

/-- Value of a hex digit, as used by urllib's `_hextobyte` table
(`0-9`, `a-f`, `A-F`). -/
def hexDigitVal (c : Char) : Option Nat :=
  if '0' ≤ c ∧ c ≤ '9' then some (c.toNat - '0'.toNat)
  else if 'a' ≤ c ∧ c ≤ 'f' then some (c.toNat - 'a'.toNat + 10)
  else if 'A' ≤ c ∧ c ≤ 'F' then some (c.toNat - 'A'.toNat + 10)
  else none

/-- The U+FFFD replacement character. -/
def replChar : Char := Char.ofNat 0xFFFD

/-- Continuation byte test (`10xxxxxx`). -/
def isContByte (b : Nat) : Bool := 0x80 ≤ b && b ≤ 0xBF

/-- Valid second byte of a three-byte UTF-8 sequence, given the lead byte
(excludes overlong encodings and surrogates, as CPython does). -/
def isCont3First (b b2 : Nat) : Bool :=
  if b = 0xE0 then 0xA0 ≤ b2 && b2 ≤ 0xBF
  else if b = 0xED then 0x80 ≤ b2 && b2 ≤ 0x9F
  else isContByte b2

/-- Valid second byte of a four-byte UTF-8 sequence, given the lead byte. -/
def isCont4First (b b2 : Nat) : Bool :=
  if b = 0xF0 then 0x90 ≤ b2 && b2 ≤ 0xBF
  else if b = 0xF4 then 0x80 ≤ b2 && b2 ≤ 0x8F
  else isContByte b2

/-- Decode one UTF-8 code point (or one replacement character) from byte `b`
followed by `rest`; returns the decoded character and the remaining bytes. -/
def utf8DecodeOne (b : Nat) (rest : List Nat) : Char × List Nat :=
  if b < 0x80 then (Char.ofNat b, rest)
  else if 0xC2 ≤ b ∧ b ≤ 0xDF then
    match rest with
    | b2 :: rest2 =>
      if isContByte b2 then (Char.ofNat ((b - 0xC0) * 0x40 + (b2 - 0x80)), rest2)
      else (replChar, rest)
    | [] => (replChar, [])
  else if 0xE0 ≤ b ∧ b ≤ 0xEF then
    match rest with
    | b2 :: rest2 =>
      if isCont3First b b2 then
        match rest2 with
        | b3 :: rest3 =>
          if isContByte b3 then
            (Char.ofNat ((b - 0xE0) * 0x1000 + (b2 - 0x80) * 0x40 + (b3 - 0x80)), rest3)
          else (replChar, rest2)
        | [] => (replChar, [])
      else (replChar, rest)
    | [] => (replChar, [])
  else if 0xF0 ≤ b ∧ b ≤ 0xF4 then
    match rest with
    | b2 :: rest2 =>
      if isCont4First b b2 then
        match rest2 with
        | b3 :: rest3 =>
          if isContByte b3 then
            match rest3 with
            | b4 :: rest4 =>
              if isContByte b4 then
                (Char.ofNat ((b - 0xF0) * 0x40000 + (b2 - 0x80) * 0x1000 +
                  (b3 - 0x80) * 0x40 + (b4 - 0x80)), rest4)
              else (replChar, rest3)
            | [] => (replChar, [])
          else (replChar, rest2)
        | [] => (replChar, [])
      else (replChar, rest)
    | [] => (replChar, [])
  else (replChar, rest)

/-- Fuel-driven UTF-8 decoding loop; each step consumes at least one byte and
emits exactly one character, so fuel equal to the byte count is exact. -/
def utf8DecodeGo : Nat → List Nat → List Char
  | 0, _ => []
  | _, [] => []
  | fuel + 1, b :: rest =>
    let p := utf8DecodeOne b rest
    p.1 :: utf8DecodeGo fuel p.2

/-- Decode a byte sequence as UTF-8, replacing invalid bytes with U+FFFD
(model of `bytes.decode("utf-8", errors="replace")`). -/
def utf8DecodeReplace (bs : List Nat) : List Char := utf8DecodeGo bs.length bs

/-- Fuel-driven percent-tokenizer loop; every step consumes at least one
character, so fuel equal to the character count is exact. -/
def tokenizePercentGo : Nat → List Char → List (Nat ⊕ Char)
  | 0, _ => []
  | _ + 1, [] => []
  | fuel + 1, c :: rest =>
    if c = '%' then
      match rest with
      | h1 :: h2 :: rest2 =>
        match hexDigitVal h1, hexDigitVal h2 with
        | some a, some b => Sum.inl (16 * a + b) :: tokenizePercentGo fuel rest2
        | _, _ => Sum.inr '%' :: tokenizePercentGo fuel rest
      | _ => Sum.inr '%' :: tokenizePercentGo fuel rest
    else Sum.inr c :: tokenizePercentGo fuel rest

/-- Tokenize a string for percent-decoding: each `%XX` hex triple becomes a
byte (`Sum.inl`), every other character stays a literal (`Sum.inr`), exactly
as urllib's split-on-percent loop behaves. -/
def tokenizePercent (l : List Char) : List (Nat ⊕ Char) :=
  tokenizePercentGo l.length l

/-- Group maximal runs of consecutive decoded bytes, so that each run is
UTF-8-decoded as a unit (urllib appends bytes to a buffer and flushes it at
the next literal character). -/
def groupPercentTokens : List (Nat ⊕ Char) → List (List Nat ⊕ Char)
  | [] => []
  | Sum.inr c :: rest => Sum.inr c :: groupPercentTokens rest
  | Sum.inl b :: rest =>
    match groupPercentTokens rest with
    | Sum.inl bs :: gs => Sum.inl (b :: bs) :: gs
    | gs => Sum.inl [b] :: gs

/-- Flatten the grouped tokens back into a string, decoding each byte run. -/
def flattenGroups : List (List Nat ⊕ Char) → List Char
  | [] => []
  | Sum.inl bs :: rest => utf8DecodeReplace bs ++ flattenGroups rest
  | Sum.inr c :: rest => c :: flattenGroups rest

/-- Model of Python's `urllib.parse.unquote`. -/
def pyUnquote (l : PyStr) : PyStr :=
  flattenGroups (groupPercentTokens (tokenizePercent l))

/-- Replace each `+` by a space (first step of `unquote_plus`). -/
def replacePlus (l : PyStr) : PyStr :=
  l.map (fun c => if c = '+' then ' ' else c)

/-- Model of Python's `urllib.parse.unquote_plus`:
`unquote(string.replace("+", " "))`. -/
def pyUnquotePlus (l : PyStr) : PyStr := pyUnquote (replacePlus l)

/-- Number of `+` characters in a string. -/
def plusCount (l : PyStr) : Nat := l.count '+'

/-- Weight of one percent-token: a byte token came from three characters. -/
def tokenWeight : (Nat ⊕ Char) → Nat
  | Sum.inl _ => 3
  | Sum.inr _ => 1

/-- Weight of a grouped token. -/
def groupWeight : (List Nat ⊕ Char) → Nat
  | Sum.inl bs => 3 * bs.length
  | Sum.inr _ => 1

theorem utf8DecodeGo_length_le (fuel : Nat) :
    ∀ bs : List Nat, (utf8DecodeGo fuel bs).length ≤ fuel := by
  induction fuel with
  | zero => intro bs; simp [utf8DecodeGo]
  | succ n ih =>
    intro bs
    cases bs with
    | nil => simp [utf8DecodeGo]
    | cons b rest =>
      simp only [utf8DecodeGo, List.length_cons]
      exact Nat.succ_le_succ (ih _)

theorem utf8DecodeReplace_length_le (bs : List Nat) :
    (utf8DecodeReplace bs).length ≤ bs.length :=
  utf8DecodeGo_length_le bs.length bs

theorem tokenizePercentGo_weight :
    ∀ (fuel : Nat) (l : List Char), l.length ≤ fuel →
      ((tokenizePercentGo fuel l).map tokenWeight).sum = l.length := by
  intro fuel
  induction fuel with
  | zero =>
    intro l hl
    interval_cases hn : l.length
    · rw [List.length_eq_zero] at hn; subst hn; simp [tokenizePercentGo]
  | succ n ih =>
    intro l hl
    match l with
    | [] => simp [tokenizePercentGo]
    | c :: rest =>
      simp only [List.length_cons] at hl
      by_cases hc : c = '%'
      · subst hc
        match rest with
        | h1 :: h2 :: rest2 =>
          simp only [List.length_cons] at hl
          cases ha : hexDigitVal h1 with
          | some a =>
            cases hb : hexDigitVal h2 with
            | some b =>
              simp only [tokenizePercentGo, if_pos rfl, ite_true, ha, hb, List.map_cons,
                List.sum_cons, tokenWeight]
              rw [ih rest2 (by omega)]
              simp; omega
            | none =>
              simp only [tokenizePercentGo, if_pos rfl, ite_true, ha, hb, List.map_cons,
                List.sum_cons, tokenWeight]
              rw [ih (h1 :: h2 :: rest2) (by simp; omega)]
              simp; omega
          | none =>
            simp only [tokenizePercentGo, if_pos rfl, ite_true, ha, List.map_cons,
              List.sum_cons, tokenWeight]
            rw [ih (h1 :: h2 :: rest2) (by simp; omega)]
            simp; omega
        | [] =>
          simp only [tokenizePercentGo, if_pos rfl, ite_true, List.map_cons, List.sum_cons,
            tokenWeight]
          rw [ih [] (by simp)]
          simp
        | [h1] =>
          simp only [tokenizePercentGo, if_pos rfl, ite_true, List.map_cons, List.sum_cons,
            tokenWeight]
          rw [ih [h1] (by simp only [List.length_cons, List.length_nil] at hl ⊢; omega)]
          simp
      · simp only [tokenizePercentGo, if_neg hc, List.map_cons, List.sum_cons,
          tokenWeight]
        rw [ih rest (by omega)]
        simp; omega

theorem tokenizePercent_weight (l : List Char) :
    ((tokenizePercent l).map tokenWeight).sum = l.length :=
  tokenizePercentGo_weight l.length l (Nat.le_refl _)

theorem groupPercentTokens_weight :
    ∀ ts : List (Nat ⊕ Char),
      ((groupPercentTokens ts).map groupWeight).sum = (ts.map tokenWeight).sum := by
  intro ts
  induction ts with
  | nil => simp [groupPercentTokens]
  | cons t rest ih =>
    cases t with
    | inr c =>
      simp only [groupPercentTokens, List.map_cons, List.sum_cons, tokenWeight,
        groupWeight]
      omega
    | inl b =>
      rcases hg : groupPercentTokens rest with _ | ⟨g, gs⟩
      · rw [hg] at ih
        simp only [List.map_nil, List.sum_nil] at ih
        simp only [groupPercentTokens, hg, List.map_cons, List.sum_cons, List.map_nil,
          List.sum_nil, groupWeight, tokenWeight, List.length_cons, List.length_nil]
        omega
      · cases g with
        | inl bs =>
          rw [hg] at ih
          simp only [List.map_cons, List.sum_cons, groupWeight, tokenWeight,
            List.length_cons] at ih
          simp only [groupPercentTokens, hg, List.map_cons, List.sum_cons, groupWeight,
            tokenWeight, List.length_cons]
          omega
        | inr c2 =>
          rw [hg] at ih
          simp only [List.map_cons, List.sum_cons, groupWeight, tokenWeight] at ih
          have hstep : groupPercentTokens (Sum.inl b :: rest)
              = Sum.inl [b] :: Sum.inr c2 :: gs := by
            simp only [groupPercentTokens, hg]
          rw [hstep]
          simp only [List.map_cons, List.sum_cons, groupWeight, tokenWeight,
            List.length_cons, List.length_nil]
          omega

theorem flattenGroups_length_le :
    ∀ gs : List (List Nat ⊕ Char),
      (flattenGroups gs).length ≤ (gs.map groupWeight).sum := by
  intro gs
  induction gs with
  | nil => simp [flattenGroups]
  | cons g rest ih =>
    cases g with
    | inl bs =>
      simp only [flattenGroups, List.length_append, List.map_cons, List.sum_cons,
        groupWeight]
      have h1 := utf8DecodeReplace_length_le bs
      omega
    | inr c =>
      simp only [flattenGroups, List.length_cons, List.map_cons, List.sum_cons,
        groupWeight]
      omega

theorem flattenGroups_length_lt :
    ∀ gs : List (List Nat ⊕ Char),
      (∃ bs, Sum.inl bs ∈ gs ∧ bs ≠ []) →
      (flattenGroups gs).length < (gs.map groupWeight).sum := by
  intro gs
  induction gs with
  | nil => rintro ⟨bs, h, _⟩; simp at h
  | cons g rest ih =>
    rintro ⟨bs, hmem, hne⟩
    rcases List.mem_cons.mp hmem with heq | htail
    · subst heq
      simp only [flattenGroups, List.length_append, List.map_cons, List.sum_cons,
        groupWeight]
      have h1 := utf8DecodeReplace_length_le bs
      have h2 := flattenGroups_length_le rest
      have h3 : 1 ≤ bs.length := List.length_pos.mpr hne
      omega
    · cases g with
      | inl bs2 =>
        simp only [flattenGroups, List.length_append, List.map_cons, List.sum_cons,
          groupWeight]
        have h1 := utf8DecodeReplace_length_le bs2
        have h2 := ih ⟨bs, htail, hne⟩
        omega
      | inr c =>
        simp only [flattenGroups, List.length_cons, List.map_cons, List.sum_cons,
          groupWeight]
        have h2 := ih ⟨bs, htail, hne⟩
        omega

theorem exists_inl_group :
    ∀ ts : List (Nat ⊕ Char), (∃ b, Sum.inl b ∈ ts) →
      ∃ bs, Sum.inl bs ∈ groupPercentTokens ts ∧ bs ≠ [] := by
  intro ts
  induction ts with
  | nil => rintro ⟨b, h⟩; simp at h
  | cons t rest ih =>
    rintro ⟨b, hmem⟩
    cases t with
    | inl b0 =>
      simp only [groupPercentTokens]
      rcases hg : groupPercentTokens rest with _ | ⟨g, gs⟩
      · exact ⟨[b0], List.mem_cons_self _ _, by simp⟩
      · cases g with
        | inl bs => exact ⟨b0 :: bs, List.mem_cons_self _ _, by simp⟩
        | inr c => exact ⟨[b0], List.mem_cons_self _ _, by simp⟩
    | inr c =>
      rcases List.mem_cons.mp hmem with heq | htail
      · exact absurd heq (by simp)
      · obtain ⟨bs, hbs, hne⟩ := ih ⟨b, htail⟩
        exact ⟨bs, by simp [groupPercentTokens, hbs], hne⟩

theorem tokenizePercentGo_no_inl :
    ∀ (fuel : Nat) (l : List Char), l.length ≤ fuel →
      (∀ b, Sum.inl b ∉ tokenizePercentGo fuel l) →
      tokenizePercentGo fuel l = l.map Sum.inr := by
  intro fuel
  induction fuel with
  | zero =>
    intro l hl _
    interval_cases hn : l.length
    · rw [List.length_eq_zero] at hn; subst hn; simp [tokenizePercentGo]
  | succ n ih =>
    intro l hl hno
    match l with
    | [] => simp [tokenizePercentGo]
    | c :: rest =>
      simp only [List.length_cons] at hl
      by_cases hc : c = '%'
      · subst hc
        match rest with
        | h1 :: h2 :: rest2 =>
          simp only [List.length_cons] at hl
          cases ha : hexDigitVal h1 with
          | some a =>
            cases hb : hexDigitVal h2 with
            | some b =>
              exfalso
              refine hno (16 * a + b) ?_
              simp [tokenizePercentGo, ha, hb]
            | none =>
              simp only [tokenizePercentGo, if_pos rfl, ite_true, ha, hb] at hno ⊢
              rw [ih (h1 :: h2 :: rest2) (by simp; omega)
                (fun b hmem => hno b (List.mem_cons_of_mem _ hmem))]
              simp
          | none =>
            simp only [tokenizePercentGo, if_pos rfl, ite_true, ha] at hno ⊢
            rw [ih (h1 :: h2 :: rest2) (by simp; omega)
              (fun b hmem => hno b (List.mem_cons_of_mem _ hmem))]
            simp
        | [] =>
          cases n <;> simp [tokenizePercentGo]
        | [h1] =>
          simp only [tokenizePercentGo, if_pos rfl, ite_true] at hno ⊢
          rw [ih [h1] (by simp only [List.length_cons, List.length_nil] at hl ⊢; omega)
            (fun b hmem => hno b (List.mem_cons_of_mem _ hmem))]
          simp
      · simp only [tokenizePercentGo, if_neg hc] at hno ⊢
        rw [ih rest (by omega) (fun b hmem => hno b (List.mem_cons_of_mem _ hmem))]
        simp

theorem groupPercentTokens_map_inr (l : List Char) :
    groupPercentTokens (l.map Sum.inr) = l.map Sum.inr := by
  induction l with
  | nil => simp [groupPercentTokens]
  | cons c rest ih => simp [groupPercentTokens, ih]

theorem flattenGroups_map_inr (l : List Char) :
    flattenGroups (l.map Sum.inr) = l := by
  induction l with
  | nil => simp [flattenGroups]
  | cons c rest ih => simp [flattenGroups, ih]

theorem pyUnquote_eq_or_lt (l : PyStr) :
    pyUnquote l = l ∨ (pyUnquote l).length < l.length := by
  rcases Classical.em (∃ b, Sum.inl b ∈ tokenizePercent l) with h | h
  · right
    obtain ⟨bs, hbs, hne⟩ := exists_inl_group _ h
    have h1 := flattenGroups_length_lt (groupPercentTokens (tokenizePercent l)) ⟨bs, hbs, hne⟩
    rw [groupPercentTokens_weight, tokenizePercent_weight] at h1
    exact h1
  · left
    push_neg at h
    have hng : tokenizePercent l = l.map Sum.inr :=
      tokenizePercentGo_no_inl l.length l (Nat.le_refl _) (fun b hmem => h b hmem)
    unfold pyUnquote
    rw [hng, groupPercentTokens_map_inr, flattenGroups_map_inr]

theorem plusCount_le_length (l : PyStr) : plusCount l ≤ l.length :=
  List.count_le_length _ _

theorem replacePlus_length (l : PyStr) : (replacePlus l).length = l.length :=
  List.length_map _ _

theorem replacePlus_plusCount (l : PyStr) : plusCount (replacePlus l) = 0 := by
  induction l with
  | nil => rfl
  | cons c rest ih =>
    simp only [replacePlus, plusCount, List.map_cons] at ih ⊢
    by_cases hc : c = '+'
    · subst hc
      simp only [if_pos rfl, ite_true]
      rw [List.count_cons]
      simp [ih]
    · simp only [if_neg hc]
      rw [List.count_cons]
      simp only [ih]
      simp [hc]

theorem replacePlus_eq_self_iff (l : PyStr) : replacePlus l = l ↔ plusCount l = 0 := by
  constructor
  · intro h
    rw [← h]
    exact replacePlus_plusCount l
  · intro h
    have hnp : '+' ∉ l := List.count_eq_zero.mp h
    unfold replacePlus
    conv_rhs => rw [← List.map_id l]
    apply List.map_congr_left
    intro c hc
    have hne : ¬c = '+' := fun e => hnp (e ▸ hc)
    simp [hne]

/-- Termination measure on one string for the decoding-variant search: both
genuine percent-decoding (which strictly shortens the string) and pure
plus-to-space replacement (which preserves length but removes `+` signs)
strictly decrease it. -/
def decodeMeasure (l : PyStr) : Nat :=
  l.length * l.length + 3 * l.length + plusCount l

theorem decodeMeasure_lt_of_length_lt (u l : PyStr) (h : u.length < l.length) :
    decodeMeasure u < decodeMeasure l := by
  have hpu : plusCount u ≤ u.length := plusCount_le_length u
  unfold decodeMeasure
  set a := u.length
  set b := l.length
  have hb : a + 1 ≤ b := h
  have h2 : (a + 1) * (a + 1) ≤ b * b := Nat.mul_le_mul hb hb
  have h3 : (a + 1) * (a + 1) = a * a + 2 * a + 1 := by ring
  omega

theorem pyUnquote_measure_lt (l : PyStr) (h : pyUnquote l ≠ l) :
    decodeMeasure (pyUnquote l) < decodeMeasure l := by
  rcases pyUnquote_eq_or_lt l with heq | hlt
  · exact absurd heq h
  · exact decodeMeasure_lt_of_length_lt _ _ hlt

theorem pyUnquotePlus_measure_lt (l : PyStr) (h : pyUnquotePlus l ≠ l) :
    decodeMeasure (pyUnquotePlus l) < decodeMeasure l := by
  unfold pyUnquotePlus at h ⊢
  rcases pyUnquote_eq_or_lt (replacePlus l) with heq | hlt
  · rw [heq] at h ⊢
    have hne : plusCount l ≠ 0 := fun h0 => h ((replacePlus_eq_self_iff l).mpr h0)
    unfold decodeMeasure
    rw [replacePlus_length, replacePlus_plusCount]
    omega
  · rw [replacePlus_length] at hlt
    exact decodeMeasure_lt_of_length_lt _ _ hlt

/-- Enqueue a decoded form only if it is neither already visited nor equal to
the current string (the two guards at the queue-append sites of
`_iter_decoded_variants`). -/
def enqueueIfNew (seen : List PyStr) (current decoded : PyStr) : List PyStr :=
  if decoded ∉ seen ∧ decoded ≠ current then [decoded] else []

/-- Fuel-indexed model of the BFS loop of `_iter_decoded_variants`: pop the
queue head; skip it if already visited; otherwise mark it visited, record it
as a variant, and enqueue its `unquote` and `unquote_plus` forms when new.
Fuel counts loop iterations; `none` means the fuel ran out. -/
def iterDecodedVariantsAux : Nat → List PyStr → List PyStr → List PyStr → Option (List PyStr)
  | _, _, [], variants => some variants
  | 0, _, _ :: _, _ => none
  | fuel + 1, seen, current :: rest, variants =>
    if current ∈ seen then
      iterDecodedVariantsAux fuel seen rest variants
    else
      iterDecodedVariantsAux fuel (current :: seen)
        ((rest ++ enqueueIfNew (current :: seen) current (pyUnquote current))
          ++ enqueueIfNew (current :: seen) current (pyUnquotePlus current))
        (variants ++ [current])

/-- Model of `_iter_decoded_variants` (with explicit fuel): the empty string
(falsy in Python) yields no variants at once. -/
def iterDecodedVariants (fuel : Nat) (value : PyStr) : Option (List PyStr) :=
  if value = [] then some [] else iterDecodedVariantsAux fuel [] [value] []

/-- Aggregate measure of the whole queue. -/
def queueMeasure (queue : List PyStr) : Nat :=
  (queue.map (fun t => 3 ^ decodeMeasure t)).sum

theorem queueMeasure_append (q1 q2 : List PyStr) :
    queueMeasure (q1 ++ q2) = queueMeasure q1 + queueMeasure q2 := by
  simp [queueMeasure]

theorem queueMeasure_cons (c : PyStr) (rest : List PyStr) :
    queueMeasure (c :: rest) = 3 ^ decodeMeasure c + queueMeasure rest := by
  simp [queueMeasure]

theorem enqueueIfNew_measure_le (seen : List PyStr) (current decoded : PyStr)
    (h : decoded ≠ current → decodeMeasure decoded < decodeMeasure current) :
    decodeMeasure current = 0 → queueMeasure (enqueueIfNew seen current decoded) = 0 := by
  intro h0
  unfold enqueueIfNew
  split
  · rename_i hcond
    exact absurd (h hcond.2) (by omega)
  · rfl

theorem enqueueIfNew_measure_lt (seen : List PyStr) (current decoded : PyStr) (k : Nat)
    (hk : decodeMeasure current = k + 1)
    (h : decoded ≠ current → decodeMeasure decoded < decodeMeasure current) :
    queueMeasure (enqueueIfNew seen current decoded) ≤ 3 ^ k := by
  unfold enqueueIfNew
  split
  · rename_i hcond
    have hlt := h hcond.2
    rw [hk] at hlt
    simp only [queueMeasure, List.map_cons, List.map_nil, List.sum_cons, List.sum_nil,
      Nat.add_zero]
    exact Nat.pow_le_pow_right (by omega) (by omega)
  · simp [queueMeasure]

theorem iterAux_step_measure (seen rest : List PyStr) (current : PyStr) :
    queueMeasure
      ((rest ++ enqueueIfNew (current :: seen) current (pyUnquote current))
        ++ enqueueIfNew (current :: seen) current (pyUnquotePlus current))
      < queueMeasure (current :: rest) := by
  rw [queueMeasure_append, queueMeasure_append, queueMeasure_cons]
  rcases hk : decodeMeasure current with _ | k
  · rw [enqueueIfNew_measure_le _ _ _ (fun h => pyUnquote_measure_lt current h) hk,
      enqueueIfNew_measure_le _ _ _ (fun h => pyUnquotePlus_measure_lt current h) hk]
    simp
  · have h1 := enqueueIfNew_measure_lt (current :: seen) current (pyUnquote current) k hk
      (fun h => pyUnquote_measure_lt current h)
    have h2 := enqueueIfNew_measure_lt (current :: seen) current (pyUnquotePlus current) k hk
      (fun h => pyUnquotePlus_measure_lt current h)
    have h3 : 3 ^ (k + 1) = 3 ^ k + 3 ^ k + 3 ^ k := by rw [pow_succ]; ring
    have h4 : 1 ≤ 3 ^ k := Nat.one_le_pow _ _ (by omega)
    omega

theorem iterAux_total :
    ∀ n : Nat, ∀ seen queue variants : List PyStr, queueMeasure queue ≤ n →
      ∃ l, iterDecodedVariantsAux (n + 1) seen queue variants = some l := by
  intro n
  induction n using Nat.strong_induction_on with
  | _ n ih =>
    intro seen queue variants hq
    match queue with
    | [] => exact ⟨variants, rfl⟩
    | current :: rest =>
      have hpos : 1 ≤ 3 ^ decodeMeasure current := Nat.one_le_pow _ _ (by omega)
      rw [queueMeasure_cons] at hq
      rcases n with _ | m
      · exfalso; omega
      · simp only [iterDecodedVariantsAux]
        by_cases hmem : current ∈ seen
        · rw [if_pos hmem]
          exact ih m (by omega) seen rest variants (by omega)
        · rw [if_neg hmem]
          have hlt := iterAux_step_measure seen rest current
          rw [queueMeasure_cons] at hlt
          exact ih m (by omega) _ _ _ (by omega)

theorem iterAux_nodup :
    ∀ fuel : Nat, ∀ seen queue variants l : List PyStr,
      iterDecodedVariantsAux fuel seen queue variants = some l →
      variants.Nodup → (∀ x ∈ variants, x ∈ seen) → l.Nodup := by
  intro fuel
  induction fuel with
  | zero =>
    intro seen queue variants l h hv _
    match queue with
    | [] => cases h; exact hv
    | current :: rest => simp [iterDecodedVariantsAux] at h
  | succ m ih =>
    intro seen queue variants l h hv hsub
    match queue with
    | [] => cases h; exact hv
    | current :: rest =>
      simp only [iterDecodedVariantsAux] at h
      by_cases hmem : current ∈ seen
      · rw [if_pos hmem] at h
        exact ih seen rest variants l h hv hsub
      · rw [if_neg hmem] at h
        refine ih _ _ _ l h ?_ ?_
        · rw [List.nodup_append]
          refine ⟨hv, List.nodup_singleton _, ?_⟩
          intro x hx
          simp only [List.mem_singleton]
          intro hxc
          subst hxc
          exact hmem (hsub x hx)
        · intro x hx
          rcases List.mem_append.mp hx with h1 | h1
          · exact List.mem_cons_of_mem _ (hsub x h1)
          · rw [List.mem_singleton] at h1
            subst h1
            exact List.mem_cons_self _ _

/-- Claim C3: for every input string, the decoding-variant generator
`_iter_decoded_variants` terminates (some finite fuel completes the BFS loop)
and returns a list of pairwise-distinct strings, because each decoded form is
enqueued only if not already in the visited set. -/
theorem claim_C3_iter_decoded_variants_terminates_nodup (value : PyStr) :
    ∃ (fuel : Nat) (l : List PyStr),
      iterDecodedVariants fuel value = some l ∧ l.Nodup := by
  by_cases hv : value = []
  · exact ⟨0, [], by simp [iterDecodedVariants, hv], List.nodup_nil⟩
  · obtain ⟨l, hl⟩ := iterAux_total (queueMeasure [value]) [] [value] [] (Nat.le_refl _)
    refine ⟨queueMeasure [value] + 1, l, ?_, ?_⟩
    · simp only [iterDecodedVariants, if_neg hv]
      exact hl
    · exact iterAux_nodup _ _ _ _ _ hl List.nodup_nil (by simp)

/-- Opening curly brace character. -/
def lbraceChar : Char := Char.ofNat 123

/-- Closing curly brace character. -/
def rbraceChar : Char := Char.ofNat 125

/-- Single-quote character. -/
def squoteChar : Char := Char.ofNat 39

/-- Python object values as they arise from `json.loads` plus the plain
strings the program passes around: null, booleans, numbers (kept as their
source lexeme; no claim depends on numeric equality semantics), strings,
lists and dicts (association lists in insertion order, keys unique). -/
inductive JVal where
  | jnull : JVal
  | jbool (b : Bool) : JVal
  | jnum (raw : List Char) : JVal
  | jstr (s : List Char) : JVal
  | jarr (xs : List JVal) : JVal
  | jobj (fields : List (List Char × JVal)) : JVal

mutual
/-- Structural equality of modelled Python values (Python `==` on
JSON-shaped data). -/
def jvalBeq : JVal → JVal → Bool
  | .jnull, .jnull => true
  | .jbool a, .jbool b => a == b
  | .jnum a, .jnum b => a == b
  | .jstr a, .jstr b => a == b
  | .jarr xs, .jarr ys => jarrBeq xs ys
  | .jobj xs, .jobj ys => jobjBeq xs ys
  | _, _ => false

/-- Elementwise equality of value lists. -/
def jarrBeq : List JVal → List JVal → Bool
  | [], [] => true
  | x :: xs, y :: ys => jvalBeq x y && jarrBeq xs ys
  | _, _ => false

/-- Pairwise equality of field lists. -/
def jobjBeq : List (List Char × JVal) → List (List Char × JVal) → Bool
  | [], [] => true
  | (k1, v1) :: xs, (k2, v2) :: ys => k1 == k2 && jvalBeq v1 v2 && jobjBeq xs ys
  | _, _ => false
end

/-- Dict insertion with Python semantics: an existing key keeps its position
and gets the new value, a new key is appended. -/
def pyDictInsert (d : List (PyStr × JVal)) (k : PyStr) (v : JVal) : List (PyStr × JVal) :=
  if d.any (fun p => p.1 = k) then
    d.map (fun p => if p.1 = k then (p.1, v) else p)
  else d ++ [(k, v)]

/-- Lookup in a modelled dict. -/
def jObjGet : List (PyStr × JVal) → PyStr → Option JVal
  | [], _ => none
  | (k, v) :: rest, key => if k = key then some v else jObjGet rest key

/-- Python `dict.get(key, default)`. -/
def jObjGetD (fields : List (PyStr × JVal)) (key : PyStr) (default : JVal) : JVal :=
  (jObjGet fields key).getD default

/-- Python `key in dict`. -/
def jObjHasKey (fields : List (PyStr × JVal)) (key : PyStr) : Bool :=
  (jObjGet fields key).isSome

/-- Python truthiness of a modelled value (`bool(x)`). -/
def pyTruthy : JVal → Bool
  | .jnull => false
  | .jbool b => b
  | .jnum raw => !(raw.filter Char.isDigit).all (fun c => c = '0')
  | .jstr s => !s.isEmpty
  | .jarr xs => !xs.isEmpty
  | .jobj fs => !fs.isEmpty

/-- Python `len(x)`; `none` models the `TypeError` raised on an un-sized
value. -/
def pyLen : JVal → Option Nat
  | .jstr s => some s.length
  | .jarr xs => some xs.length
  | .jobj fs => some fs.length
  | _ => none

/-- Extract the underlying string of a string value. -/
def asPyString : JVal → Option PyStr
  | .jstr s => some s
  | _ => none

/-- JSON whitespace. -/
def jsonWs (c : Char) : Bool := c = ' ' || c = '\t' || c = '\n' || c = '\r'

/-- Skip JSON whitespace. -/
def skipJsonWs (l : PyStr) : PyStr := l.dropWhile jsonWs

/-- Parse the body of a JSON string literal (after the opening quote), with
the standard escapes.  A `\\u` escape becomes the character with that code
(surrogate pairs are combined; a lone surrogate cannot inhabit `Char` and is
a model artifact no claim exercises).  Raw control characters are rejected,
as `json.loads` does in its default strict mode. -/
def parseJsonStringGo : Nat → PyStr → Option (PyStr × PyStr)
  | 0, _ => none
  | _ + 1, [] => none
  | fuel + 1, c :: rest =>
    if c = '"' then some ([], rest)
    else if c = '\\' then
      match rest with
      | [] => none
      | e :: rest2 =>
        if e = '"' then (parseJsonStringGo fuel rest2).map (fun p => ('"' :: p.1, p.2))
        else if e = '\\' then (parseJsonStringGo fuel rest2).map (fun p => ('\\' :: p.1, p.2))
        else if e = '/' then (parseJsonStringGo fuel rest2).map (fun p => ('/' :: p.1, p.2))
        else if e = 'b' then (parseJsonStringGo fuel rest2).map (fun p => (Char.ofNat 8 :: p.1, p.2))
        else if e = 'f' then (parseJsonStringGo fuel rest2).map (fun p => (Char.ofNat 12 :: p.1, p.2))
        else if e = 'n' then (parseJsonStringGo fuel rest2).map (fun p => ('\n' :: p.1, p.2))
        else if e = 'r' then (parseJsonStringGo fuel rest2).map (fun p => ('\r' :: p.1, p.2))
        else if e = 't' then (parseJsonStringGo fuel rest2).map (fun p => ('\t' :: p.1, p.2))
        else if e = 'u' then
          match rest2 with
          | h1 :: h2 :: h3 :: h4 :: rest3 =>
            match hexDigitVal h1, hexDigitVal h2, hexDigitVal h3, hexDigitVal h4 with
            | some a, some b, some c2, some d =>
              let code := ((a * 16 + b) * 16 + c2) * 16 + d
              if 0xD800 ≤ code ∧ code ≤ 0xDBFF then
                match rest3 with
                | '\\' :: 'u' :: g1 :: g2 :: g3 :: g4 :: rest4 =>
                  match hexDigitVal g1, hexDigitVal g2, hexDigitVal g3, hexDigitVal g4 with
                  | some a2, some b2, some c3, some d2 =>
                    let code2 := ((a2 * 16 + b2) * 16 + c3) * 16 + d2
                    if 0xDC00 ≤ code2 ∧ code2 ≤ 0xDFFF then
                      (parseJsonStringGo fuel rest4).map
                        (fun p => (Char.ofNat (0x10000 + (code - 0xD800) * 0x400 + (code2 - 0xDC00)) :: p.1, p.2))
                    else (parseJsonStringGo fuel rest3).map (fun p => (Char.ofNat code :: p.1, p.2))
                  | _, _, _, _ =>
                    (parseJsonStringGo fuel rest3).map (fun p => (Char.ofNat code :: p.1, p.2))
                | _ => (parseJsonStringGo fuel rest3).map (fun p => (Char.ofNat code :: p.1, p.2))
              else (parseJsonStringGo fuel rest3).map (fun p => (Char.ofNat code :: p.1, p.2))
            | _, _, _, _ => none
          | _ => none
        else none
    else if c.toNat < 0x20 then none
    else (parseJsonStringGo fuel rest).map (fun p => (c :: p.1, p.2))

/-- Parse a JSON number lexeme (`json`'s NUMBER_RE); returns the lexeme and
the remaining input. -/
def parseJsonNumber (l : PyStr) : Option (PyStr × PyStr) :=
  let sp := match l with
    | '-' :: r => (['-'], r)
    | _ => (([] : PyStr), l)
  let sign := sp.1
  let r1 := sp.2
  match r1 with
  | [] => none
  | d :: _ =>
    if !d.isDigit then none
    else
      let intPart := if d = '0' then ['0'] else r1.takeWhile Char.isDigit
      let r2 := r1.drop intPart.length
      let fp := match r2 with
        | '.' :: r =>
          let ds := r.takeWhile Char.isDigit
          if ds.isEmpty then (([] : PyStr), r2) else ('.' :: ds, r.drop ds.length)
        | _ => (([] : PyStr), r2)
      let fracPart := fp.1
      let r3 := fp.2
      let ep := match r3 with
        | e :: r =>
          if e = 'e' ∨ e = 'E' then
            match r with
            | s :: r5 =>
              if s = '+' ∨ s = '-' then
                let ds := r5.takeWhile Char.isDigit
                if ds.isEmpty then (([] : PyStr), r3) else (e :: s :: ds, r5.drop ds.length)
              else
                let ds := r.takeWhile Char.isDigit
                if ds.isEmpty then (([] : PyStr), r3) else (e :: ds, r.drop ds.length)
            | [] => (([] : PyStr), r3)
          else (([] : PyStr), r3)
        | [] => (([] : PyStr), r3)
      some (sign ++ intPart ++ fracPart ++ ep.1, ep.2)

mutual
/-- Fuel-indexed JSON value parser (model of `json.loads`' scanner); returns
the value and the remaining input. -/
def parseJValGo : Nat → PyStr → Option (JVal × PyStr)
  | 0, _ => none
  | fuel + 1, l =>
    match skipJsonWs l with
    | [] => none
    | c :: rest =>
      if c = '"' then
        (parseJsonStringGo rest.length rest).map (fun p => (JVal.jstr p.1, p.2))
      else if c = 't' then
        if rest.take 3 = ['r', 'u', 'e'] then some (JVal.jbool true, rest.drop 3) else none
      else if c = 'f' then
        if rest.take 4 = ['a', 'l', 's', 'e'] then some (JVal.jbool false, rest.drop 4) else none
      else if c = 'n' then
        if rest.take 3 = ['u', 'l', 'l'] then some (JVal.jnull, rest.drop 3) else none
      else if c = '[' then
        match skipJsonWs rest with
        | ']' :: r2 => some (JVal.jarr [], r2)
        | r2 => (parseJsonArrRest fuel r2).map (fun p => (JVal.jarr p.1, p.2))
      else if c = lbraceChar then
        match skipJsonWs rest with
        | r2 =>
          if r2.take 1 = [rbraceChar] then some (JVal.jobj [], r2.drop 1)
          else
            (parseJsonObjRest fuel r2).map
              (fun p => (JVal.jobj (p.1.foldl (fun d kv => pyDictInsert d kv.1 kv.2) []), p.2))
      else
        (parseJsonNumber (c :: rest)).map (fun p => (JVal.jnum p.1, p.2))

/-- Parse the items of a non-empty JSON array (a value is required next). -/
def parseJsonArrRest : Nat → PyStr → Option (List JVal × PyStr)
  | 0, _ => none
  | fuel + 1, l =>
    match parseJValGo fuel l with
    | none => none
    | some (v, r) =>
      match skipJsonWs r with
      | ',' :: r3 => (parseJsonArrRest fuel r3).map (fun p => (v :: p.1, p.2))
      | ']' :: r3 => some ([v], r3)
      | _ => none

/-- Parse the members of a non-empty JSON object (a key is required next). -/
def parseJsonObjRest : Nat → PyStr → Option (List (PyStr × JVal) × PyStr)
  | 0, _ => none
  | fuel + 1, l =>
    match skipJsonWs l with
    | '"' :: r =>
      match parseJsonStringGo r.length r with
      | none => none
      | some (key, r2) =>
        match skipJsonWs r2 with
        | ':' :: r3 =>
          match parseJValGo fuel r3 with
          | none => none
          | some (v, r4) =>
            match skipJsonWs r4 with
            | ',' :: r5 => (parseJsonObjRest fuel r5).map (fun p => ((key, v) :: p.1, p.2))
            | r5 =>
              if r5.take 1 = [rbraceChar] then some ([(key, v)], r5.drop 1) else none
        | _ => none
    | _ => none
end

/-- Model of Python's `json.loads`: parse one value and require only
whitespace after it; `none` models a raised `JSONDecodeError`. -/
def jsonLoads (l : PyStr) : Option JVal :=
  match parseJValGo (l.length + 1) l with
  | some (v, r) => if (skipJsonWs r).isEmpty then some v else none
  | none => none

/-- Lower-case one character (ASCII; the claims only exercise ASCII input,
non-ASCII case folding is not modelled). -/
def pyLowerChar (c : Char) : Char :=
  if 'A' ≤ c ∧ c ≤ 'Z' then Char.ofNat (c.toNat + 32) else c

/-- Model of Python `str.lower()`. -/
def pyLower (l : PyStr) : PyStr := l.map pyLowerChar

/-- Model of Python `needle in haystack` for strings. -/
def pyContains : PyStr → PyStr → Bool
  | _, [] => true
  | [], _ :: _ => false
  | c :: rest, needle => needle.isPrefixOf (c :: rest) || pyContains rest needle

/-- Python whitespace characters (ASCII; also used for the regex class
`\s`, whose non-ASCII members no claim exercises). -/
def pyIsSpace (c : Char) : Bool :=
  c = ' ' || c = '\t' || c = '\n' || c = '\r' || c = Char.ofNat 0x0b || c = Char.ofNat 0x0c

/-- Model of Python `str.strip()`. -/
def pyStrip (l : PyStr) : PyStr :=
  ((l.dropWhile pyIsSpace).reverse.dropWhile pyIsSpace).reverse

/-- Token dictionaries returned by the decoder (Python dicts in insertion
order). -/
abbrev TokenDict := List (PyStr × JVal)

mutual
/-- Model of `_extract_tokens_from_json`: depth-first search of a parsed
payload for a dict exposing all of `pnk`, `folderFlag`, `oid`; strings are
re-parsed as nested JSON.  Outer `none` means the fuel ran out, `some none`
models Python's `None` result. -/
def extractTokensFromJson : Nat → JVal → Option (Option TokenDict)
  | 0, _ => none
  | fuel + 1, .jobj fields =>
    if jObjHasKey fields (pyOf "pnk") && jObjHasKey fields (pyOf "folderFlag")
        && jObjHasKey fields (pyOf "oid") then
      some (some [(pyOf "pnk", jObjGetD fields (pyOf "pnk") (JVal.jstr [])),
        (pyOf "folderFlag", jObjGetD fields (pyOf "folderFlag") (JVal.jstr [])),
        (pyOf "oid", jObjGetD fields (pyOf "oid") (JVal.jstr []))])
    else extractTokensValues fuel fields
  | fuel + 1, .jarr xs => extractTokensItems fuel xs
  | fuel + 1, .jstr s =>
    match jsonLoads s with
    | none => some none
    | some nested =>
      if jvalBeq nested (.jstr s) then some none else extractTokensFromJson fuel nested
  | _ + 1, _ => some none

/-- Iterate `payload.values()` of a dict, returning the first truthy result. -/
def extractTokensValues : Nat → List (PyStr × JVal) → Option (Option TokenDict)
  | 0, _ => none
  | _ + 1, [] => some none
  | fuel + 1, (_, v) :: rest =>
    match extractTokensFromJson fuel v with
    | none => none
    | some (some t) => if t.isEmpty then extractTokensValues fuel rest else some (some t)
    | some none => extractTokensValues fuel rest

/-- Iterate the items of a list, returning the first truthy result. -/
def extractTokensItems : Nat → List JVal → Option (Option TokenDict)
  | 0, _ => none
  | _ + 1, [] => some none
  | fuel + 1, v :: rest =>
    match extractTokensFromJson fuel v with
    | none => none
    | some (some t) => if t.isEmpty then extractTokensItems fuel rest else some (some t)
    | some none => extractTokensItems fuel rest
end

/-- Association-list insert for string-valued Python dicts (existing key
keeps position, new key appended). -/
def strMapInsert (d : List (PyStr × PyStr)) (k v : PyStr) : List (PyStr × PyStr) :=
  if d.any (fun p => p.1 = k) then
    d.map (fun p => if p.1 = k then (p.1, v) else p)
  else d ++ [(k, v)]

/-- Lookup in a string-valued dict. -/
def strMapGet : List (PyStr × PyStr) → PyStr → Option PyStr
  | [], _ => none
  | (k, v) :: rest, key => if k = key then some v else strMapGet rest key

/-- Split a string at every character satisfying the predicate, keeping empty
segments (Python `re.split` with a single-character class). -/
def splitOnPred (p : Char → Bool) : PyStr → List PyStr
  | [] => [[]]
  | c :: rest =>
    match splitOnPred p rest with
    | s :: ss => if p c then [] :: s :: ss else (c :: s) :: ss
    | [] => if p c then [[], []] else [[c]]

/-- Separator class of `re.split(r"[?&#\s]", ...)`. -/
def isQuerySplitChar (c : Char) : Bool :=
  c = '?' || c = '&' || c = '#' || pyIsSpace c

/-- Split at the first occurrence of a character (`str.split(sep, 1)` when
the separator occurs). -/
def splitOnceAt (sep : Char) : PyStr → Option (PyStr × PyStr)
  | [] => none
  | c :: rest =>
    if c = sep then some ([], rest)
    else (splitOnceAt sep rest).map (fun p => (c :: p.1, p.2))

/-- Percent-decode a value for up to `n` extra rounds, stopping when decoding
no longer changes it (the `_decode` helper of
`_extract_tokens_from_query_string`). -/
def decodeRounds : Nat → PyStr → PyStr
  | 0, v => v
  | n + 1, v =>
    let nv := pyUnquote v
    if nv = v then v else decodeRounds n nv

/-- All of `pnk`, `folderFlag`, `oid` present in the collected pairs. -/
def qsHasAllThree (pairs : List (PyStr × PyStr)) : Bool :=
  (strMapGet pairs (pyOf "pnk")).isSome && (strMapGet pairs (pyOf "folderFlag")).isSome
    && (strMapGet pairs (pyOf "oid")).isSome

/-- Collect `key=value` pairs from one decoded variant: split on `[?&#\s]`,
keep parts passing the cheap substring gate (note the case-sensitive
`folderflag=` literal), split those on `&`, then take `key=value` pairs whose
stripped key is one of the three token names and whose value is non-empty. -/
def qsPairsOfVariant (variant : PyStr) (pairs0 : List (PyStr × PyStr)) :
    List (PyStr × PyStr) :=
  (splitOnPred isQuerySplitChar variant).foldl
    (fun pairs part =>
      if pyContains part (pyOf "pnk=") || pyContains part (pyOf "folderflag=")
          || pyContains part (pyOf "oid=") then
        (splitOnPred (fun c => c = '&') part).foldl
          (fun pairs2 sub =>
            match splitOnceAt '=' sub with
            | none => pairs2
            | some (rawKey, value) =>
              let key := pyStrip rawKey
              if (key = pyOf "pnk" ∨ key = pyOf "folderFlag" ∨ key = pyOf "oid")
                  ∧ value ≠ [] then
                strMapInsert pairs2 key value
              else pairs2)
          pairs
      else pairs)
    pairs0

/-- Accumulate pairs over the variants, stopping early once all three keys
are present (the `break` in the variant loop). -/
def qsLoop : List PyStr → List (PyStr × PyStr) → List (PyStr × PyStr)
  | [], pairs => pairs
  | v :: vs, pairs =>
    let p2 := qsPairsOfVariant v pairs
    if qsHasAllThree p2 then p2 else qsLoop vs p2

/-- Model of `_extract_tokens_from_query_string`: requires the cheap
case-insensitive `pnk`/`oid` gate, collects pairs over all decoded variants,
demands all three keys, and returns only `pnk` and `oid`, each percent-decoded
up to three more rounds.  Outer `none` is fuel exhaustion. -/
def extractTokensFromQueryString (fuel : Nat) (candidate : PyStr) :
    Option (Option TokenDict) :=
  if candidate.isEmpty then some none
  else
    let lowered := pyLower candidate
    if !(pyContains lowered (pyOf "pnk") && pyContains lowered (pyOf "oid")) then
      some none
    else
      match iterDecodedVariants fuel candidate with
      | none => none
      | some variants =>
        let pairs := qsLoop variants []
        if qsHasAllThree pairs then
          some (some [(pyOf "pnk", JVal.jstr (decodeRounds 3 ((strMapGet pairs (pyOf "pnk")).getD []))),
            (pyOf "oid", JVal.jstr (decodeRounds 3 ((strMapGet pairs (pyOf "oid")).getD [])))])
        else some none

/-- Quote characters accepted by the fallback regex. -/
def isQuoteChar (c : Char) : Bool := c = '"' || c = squoteChar

/-- Match one of the three key names as a prefix (regex alternation order). -/
def regexKeyAt (l : PyStr) : Option (PyStr × PyStr) :=
  if (pyOf "pnk").isPrefixOf l then some (pyOf "pnk", l.drop 3)
  else if (pyOf "folderFlag").isPrefixOf l then some (pyOf "folderFlag", l.drop 10)
  else if (pyOf "oid").isPrefixOf l then some (pyOf "oid", l.drop 3)
  else none

/-- Try to match the fallback pattern
`(?:"|')(pnk|folderFlag|oid)(?:"|')\s*[:=]\s*(?:"|')([^"']+)` at the start of
the input; on success returns the two groups and the input after the match. -/
def matchTokenPairAt (l : PyStr) : Option ((PyStr × PyStr) × PyStr) :=
  match l with
  | [] => none
  | c :: rest =>
    if isQuoteChar c then
      match regexKeyAt rest with
      | none => none
      | some (key, r2) =>
        match r2 with
        | [] => none
        | q2 :: r3 =>
          if isQuoteChar q2 then
            match r3.dropWhile pyIsSpace with
            | [] => none
            | op :: r5 =>
              if op = ':' ∨ op = '=' then
                match r5.dropWhile pyIsSpace with
                | [] => none
                | q3 :: r7 =>
                  if isQuoteChar q3 then
                    let value := r7.takeWhile (fun c2 => !isQuoteChar c2)
                    if value.isEmpty then none
                    else some ((key, value), r7.drop value.length)
                  else none
              else none
          else none
    else none

/-- Scan for all non-overlapping matches, resuming after each match
(`re.findall`).  Every step consumes at least one character, so fuel equal to
the length is exact. -/
def regexFindallGo : Nat → PyStr → List (PyStr × PyStr)
  | 0, _ => []
  | _ + 1, [] => []
  | fuel + 1, c :: rest =>
    match matchTokenPairAt (c :: rest) with
    | some (pair, r) => pair :: regexFindallGo fuel r
    | none => regexFindallGo fuel rest

/-- All fallback-pattern matches in a string. -/
def regexFindTokens (l : PyStr) : List (PyStr × PyStr) :=
  regexFindallGo l.length l

/-- Model of the fourth stage of `_parse_search_response_for_tokens`: build a
dict from the regex matches of each candidate and return it when it has all
three keys. -/
def searchStage4 : List PyStr → Option TokenDict
  | [] => none
  | candidate :: rest =>
    let tm := (regexFindTokens candidate).foldl (fun d p => strMapInsert d p.1 p.2) []
    if qsHasAllThree tm then some (tm.map (fun p => (p.1, JVal.jstr p.2)))
    else searchStage4 rest

/-- JSON-looking start (`candidate.strip().startswith(("{", "["))`). -/
def startsJsonBracket (l : PyStr) : Bool :=
  match l with
  | c :: _ => c = lbraceChar || c = '['
  | [] => false

/-- Model of the first stage: JSON-parse each gated candidate and search the
tree for the token triple. -/
def searchStage1 (fuel : Nat) (ct : PyStr) : List PyStr → Option (Option TokenDict)
  | [] => some none
  | candidate :: rest =>
    if pyContains ct (pyOf "json") || startsJsonBracket (pyStrip candidate) then
      match jsonLoads candidate with
      | none => searchStage1 fuel ct rest
      | some payload =>
        match extractTokensFromJson fuel payload with
        | none => none
        | some (some t) => if t.isEmpty then searchStage1 fuel ct rest else some (some t)
        | some none => searchStage1 fuel ct rest
    else searchStage1 fuel ct rest

/-- Query-string extraction over the nested decoded variants of one
designated field value. -/
def searchStage2Nested (fuel : Nat) : List PyStr → Option (Option TokenDict)
  | [] => some none
  | n :: ns =>
    match extractTokensFromQueryString fuel n with
    | none => none
    | some (some t) =>
      if t.isEmpty then searchStage2Nested fuel ns else some (some t)
    | some none => searchStage2Nested fuel ns

/-- Iterate the designated field values (`body`, `data`, `params`,
`postData`): string values are decoded into variants and scanned as query
strings. -/
def searchStage2Fields (fuel : Nat) : List JVal → Option (Option TokenDict)
  | [] => some none
  | f :: fs =>
    match f with
    | .jstr s =>
      match iterDecodedVariants fuel s with
      | none => none
      | some nested =>
        match searchStage2Nested fuel nested with
        | none => none
        | some (some t) => some (some t)
        | some none => searchStage2Fields fuel fs
    | _ => searchStage2Fields fuel fs

/-- Model of the second stage: for each JSON-parseable candidate that is a
dict, inspect its `body`/`data`/`params`/`postData` fields. -/
def searchStage2 (fuel : Nat) : List PyStr → Option (Option TokenDict)
  | [] => some none
  | candidate :: rest =>
    match jsonLoads candidate with
    | none => searchStage2 fuel rest
    | some payload =>
      match payload with
      | .jobj fields =>
        let possible := [pyOf "body", pyOf "data", pyOf "params", pyOf "postData"].filterMap
          (fun key => jObjGet fields key)
        match searchStage2Fields fuel possible with
        | none => none
        | some (some t) => some (some t)
        | some none => searchStage2 fuel rest
      | _ => searchStage2 fuel rest

/-- Model of the third stage: query-string extraction directly on each
candidate. -/
def searchStage3 (fuel : Nat) : List PyStr → Option (Option TokenDict)
  | [] => some none
  | candidate :: rest =>
    match extractTokensFromQueryString fuel candidate with
    | none => none
    | some (some t) => if t.isEmpty then searchStage3 fuel rest else some (some t)
    | some none => searchStage3 fuel rest

/-- Model of `_parse_search_response_for_tokens`: generate the decoded
variants of the response text and run the four extraction stages in order,
first success winning.  Outer `none` is fuel exhaustion; `some none` is
Python's `None` (no tokens found). -/
def parseSearchResponseForTokens (fuel : Nat) (text contentType : PyStr) :
    Option (Option TokenDict) :=
  if text.isEmpty then some none
  else
    let ct := pyLower contentType
    match iterDecodedVariants fuel text with
    | none => none
    | some candidates =>
      match searchStage1 fuel ct candidates with
      | none => none
      | some (some t) => some (some t)
      | some none =>
        match searchStage2 fuel candidates with
        | none => none
        | some (some t) => some (some t)
        | some none =>
          match searchStage3 fuel candidates with
          | none => none
          | some (some t) => some (some t)
          | some none => some (searchStage4 (candidates ++ [text]))

theorem searchStage1_ct_irrelevant (fuel : Nat) (ct1 ct2 : PyStr) :
    ∀ cands : List PyStr, (∀ cand ∈ cands, startsJsonBracket (pyStrip cand) = true) →
      searchStage1 fuel ct1 cands = searchStage1 fuel ct2 cands := by
  intro cands
  induction cands with
  | nil => intro _; rfl
  | cons cand rest ih =>
    intro h
    have hc : startsJsonBracket (pyStrip cand) = true := h cand (List.mem_cons_self _ _)
    have hrest : ∀ c ∈ rest, startsJsonBracket (pyStrip c) = true :=
      fun c hm => h c (List.mem_cons_of_mem _ hm)
    simp only [searchStage1, hc, Bool.or_true, if_true]
    rw [ih hrest]

/-- Claim C1: the spec's token-extraction test case requires that decoding the
response text `{"data":"pnk=ABC%26oid%3D123&folderFlag=X"}` (under any content
type) yields the token set `{pnk: "ABC", oid: "123"}`.  The code instead
returns `None` on exactly this input: inside
`_extract_tokens_from_query_string` the part `folderFlag=X` never passes the
cheap gate, because that gate tests the lower-case literal `"folderflag="`
against the part without lowering it, and the extractor then refuses to return
anything unless all three of `pnk`, `folderFlag`, `oid` were captured.  This
theorem evaluates the model of `_parse_search_response_for_tokens` at the
spec's input and shows the result is `None` (the outer `some` records that the
computation completed within the fuel). -/
theorem claim_C1_token_extraction_returns_none (contentType : PyStr) :
    parseSearchResponseForTokens 60
      (pyOf "\x7b\"data\":\"pnk=ABC%26oid%3D123&folderFlag=X\"\x7d") contentType
      = some none := by
  unfold parseSearchResponseForTokens
  rw [if_neg (by decide)]
  rw [show iterDecodedVariants 60
      (pyOf "\x7b\"data\":\"pnk=ABC%26oid%3D123&folderFlag=X\"\x7d")
      = some [pyOf "\x7b\"data\":\"pnk=ABC%26oid%3D123&folderFlag=X\"\x7d",
          pyOf "\x7b\"data\":\"pnk=ABC&oid=123&folderFlag=X\"\x7d"] from rfl]
  dsimp only
  rw [searchStage1_ct_irrelevant 60 (pyLower contentType) [] _ (by decide)]
  rfl

/-- Captured direct-search template (`self.direct_search_template`). -/
structure DirectTemplate where
  url : PyStr
  method : PyStr
  headers : List (PyStr × PyStr)
  bodyTemplate : Option PyStr

/-- Mutable processor state: the fields of `RealTimeProcessor` the claims
touch.  Durations and timestamps are modelled as rationals.  The
direct-search fields are inherited from the base extractor class (whose
source is not part of this repository) and are therefore universally
quantified rather than given initial values. -/
structure ProcState where
  performanceMode : PyStr
  successStreak : Nat
  fastModeTrigger : Nat
  maxSpeedSamples : Nat
  searchStats : List ℚ
  tokenStats : List ℚ
  fetchStats : List ℚ
  searchSuccessCount : Nat
  searchFailCount : Nat
  useDirectInterface : Bool
  lastSearchUsedFallback : Bool
  directSearchTemplate : Option DirectTemplate
  directSearchFailures : Nat
  directSearchBlocklist : List PyStr
  directSearchDisabledUntil : ℚ
  directSearchTimeout : ℚ

/-- Model of `RealTimeProcessor.__init__` (lines 38-71): whatever the base
class initializer left in `base`, the subclass constructor then sets the
search counters to zero, the performance mode to `"fast"`, the success streak
to zero, the trigger to 3, the sample cap to 20, empties the timing windows
and disables the direct interface flag. -/
def initRealTimeProcessorState (base : ProcState) : ProcState :=
  { base with
    searchSuccessCount := 0
    searchFailCount := 0
    performanceMode := pyOf "fast"
    successStreak := 0
    lastSearchUsedFallback := false
    fastModeTrigger := 3
    maxSpeedSamples := 20
    searchStats := []
    tokenStats := []
    fetchStats := []
    useDirectInterface := false }

/-- A concrete stand-in for the state the base-class initializer produces
(used only to instantiate universally quantified theorems at a closed
point). -/
def sampleBaseState : ProcState :=
  { performanceMode := pyOf "normal"
    successStreak := 0
    fastModeTrigger := 3
    maxSpeedSamples := 20
    searchStats := []
    tokenStats := []
    fetchStats := []
    searchSuccessCount := 0
    searchFailCount := 0
    useDirectInterface := true
    lastSearchUsedFallback := false
    directSearchTemplate := none
    directSearchFailures := 0
    directSearchBlocklist := []
    directSearchDisabledUntil := 0
    directSearchTimeout := 6 }

/-- Model of `_record_stage_time` on one stage's window: append, then evict
the oldest sample if the cap is exceeded. -/
def recordStageTime (stats : List ℚ) (maxSamples : Nat) (d : ℚ) : List ℚ :=
  let s2 := stats ++ [d]
  if maxSamples < s2.length then s2.drop 1 else s2

/-- Model of `_get_average_stage_time`: `None` on an empty window, else the
arithmetic mean. -/
def averageStageTime (stats : List ℚ) : Option ℚ :=
  if stats.isEmpty then none else some (stats.sum / stats.length)

/-- Model of `_update_performance_profile`: failures and fallback successes
reset to `normal` mode with a zero streak; a clean success extends the streak
and can trigger `fast` mode from `normal`, while in `fast` mode a slow rolling
search average (truthy and above 12) drops back to `normal`. -/
def updatePerformanceProfile (st : ProcState) (success usedFallback : Bool) : ProcState :=
  if !success then
    { st with performanceMode := pyOf "normal", successStreak := 0 }
  else if usedFallback then
    { st with performanceMode := pyOf "normal", successStreak := 0 }
  else
    let st1 := { st with successStreak := st.successStreak + 1 }
    if st1.performanceMode = pyOf "normal" ∧ st1.successStreak ≥ st1.fastModeTrigger then
      { st1 with performanceMode := pyOf "fast", successStreak := 0 }
    else if st1.performanceMode = pyOf "fast" then
      match averageStageTime st1.searchStats with
      | some avg =>
        if avg ≠ 0 ∧ avg > 12 then
          { st1 with performanceMode := pyOf "normal", successStreak := 0 }
        else st1
      | none => st1
    else st1

/-- Claim C4 (counterexample): the freshly constructed processor is not in
`normal` mode — line 45 of `__init__` sets `performance_mode = "fast"`. -/
theorem claim_C4_counterexample :
    ¬ (initRealTimeProcessorState sampleBaseState).performanceMode = pyOf "normal" := by
  decide

/-- Claim C4 as amended: whatever state the base-class initializer produced,
a freshly constructed `RealTimeProcessor` is in `fast` mode (not `normal` as
the spec states), with a zero success streak. -/
theorem claim_C4_initial_mode_is_fast (base : ProcState) :
    (initRealTimeProcessorState base).performanceMode = pyOf "fast"
      ∧ (initRealTimeProcessorState base).successStreak = 0 := by
  constructor <;> rfl

theorem updateProfile_normal_noTrigger (st : ProcState)
    (h1 : st.performanceMode = pyOf "normal")
    (hlt : ¬ st.successStreak + 1 ≥ st.fastModeTrigger) :
    updatePerformanceProfile st true false
      = { st with successStreak := st.successStreak + 1 } := by
  have hne : ¬ (pyOf "normal" = pyOf "fast") := by decide
  simp only [updatePerformanceProfile, Bool.not_true, Bool.false_eq_true, if_false, h1]
  simp [hne, hlt]

theorem updateProfile_normal_trigger (st : ProcState)
    (h1 : st.performanceMode = pyOf "normal")
    (hge : st.successStreak + 1 ≥ st.fastModeTrigger) :
    updatePerformanceProfile st true false
      = { st with performanceMode := pyOf "fast", successStreak := 0 } := by
  simp only [updatePerformanceProfile, Bool.not_true, Bool.false_eq_true, if_false, h1]
  simp [hge]

theorem updateProfile_failure (st : ProcState) (fb : Bool) :
    updatePerformanceProfile st false fb
      = { st with performanceMode := pyOf "normal", successStreak := 0 } := by
  simp [updatePerformanceProfile]

theorem updateProfile_fallback_success (st : ProcState) :
    updatePerformanceProfile st true true
      = { st with performanceMode := pyOf "normal", successStreak := 0 } := by
  simp [updatePerformanceProfile]

theorem updateProfile_fast_slow (st : ProcState) (avg : ℚ)
    (h1 : st.performanceMode = pyOf "fast")
    (h2 : averageStageTime st.searchStats = some avg) (h3 : avg > 12) :
    updatePerformanceProfile st true false
      = { st with performanceMode := pyOf "normal", successStreak := 0 } := by
  have hne : ¬ (pyOf "fast" = pyOf "normal") := by decide
  have h4 : avg ≠ 0 := by intro h; rw [h] at h3; norm_num at h3
  simp only [updatePerformanceProfile, Bool.not_true, Bool.false_eq_true, if_false, h1, h2,
    hne, false_and, if_neg, ite_false, ite_true]
  simp [h4, h3, hne]

/-- Claim C5: the operating-mode transitions of `_update_performance_profile`:
(1) three consecutive non-fallback successes from `normal` mode with a fresh
streak switch to `fast` with the streak reset; (2) a single failure while in
`fast` switches back to `normal` and zeroes the streak; (3) a success that
used the fallback tactic does the same; (4) so does a clean success in `fast`
mode when the rolling average search time exceeds 12. -/
theorem claim_C5_mode_transitions :
    (∀ st : ProcState, st.performanceMode = pyOf "normal" → st.successStreak = 0 →
      st.fastModeTrigger = 3 →
      ((updatePerformanceProfile (updatePerformanceProfile
          (updatePerformanceProfile st true false) true false) true false).performanceMode
            = pyOf "fast"
        ∧ (updatePerformanceProfile (updatePerformanceProfile
            (updatePerformanceProfile st true false) true false) true false).successStreak
            = 0))
    ∧ (∀ (st : ProcState) (fb : Bool), st.performanceMode = pyOf "fast" →
      ((updatePerformanceProfile st false fb).performanceMode = pyOf "normal"
        ∧ (updatePerformanceProfile st false fb).successStreak = 0))
    ∧ (∀ st : ProcState, st.performanceMode = pyOf "fast" →
      ((updatePerformanceProfile st true true).performanceMode = pyOf "normal"
        ∧ (updatePerformanceProfile st true true).successStreak = 0))
    ∧ (∀ (st : ProcState) (avg : ℚ), st.performanceMode = pyOf "fast" →
      averageStageTime st.searchStats = some avg → avg > 12 →
      ((updatePerformanceProfile st true false).performanceMode = pyOf "normal"
        ∧ (updatePerformanceProfile st true false).successStreak = 0)) := by
  refine ⟨?_, ?_, ?_, ?_⟩
  · intro st h1 h2 h3
    have e1 : updatePerformanceProfile st true false
        = { st with successStreak := st.successStreak + 1 } :=
      updateProfile_normal_noTrigger st h1 (by rw [h2, h3]; decide)
    rw [e1]
    have e2 : updatePerformanceProfile
        { st with successStreak := st.successStreak + 1 } true false
        = { st with successStreak := st.successStreak + 1 + 1 } := by
      rw [updateProfile_normal_noTrigger _ (by simpa using h1) (by simp [h2, h3])]
    rw [e2]
    have e3 : updatePerformanceProfile
        { st with successStreak := st.successStreak + 1 + 1 } true false
        = { st with performanceMode := pyOf "fast", successStreak := 0 } := by
      rw [updateProfile_normal_trigger _ (by simpa using h1) (by simp [h2, h3])]
    rw [e3]
    exact ⟨rfl, rfl⟩
  · intro st fb _
    rw [updateProfile_failure st fb]
    exact ⟨rfl, rfl⟩
  · intro st _
    rw [updateProfile_fallback_success st]
    exact ⟨rfl, rfl⟩
  · intro st avg h1 h2 h3
    rw [updateProfile_fast_slow st avg h1 h2 h3]
    exact ⟨rfl, rfl⟩

/-- Witness for claim C5: each transition evaluated at a concrete state. -/
theorem claim_C5_mode_transitions_witness :
    ((updatePerformanceProfile (updatePerformanceProfile
        (updatePerformanceProfile sampleBaseState true false) true false)
        true false).performanceMode = pyOf "fast"
      ∧ (updatePerformanceProfile (updatePerformanceProfile
          (updatePerformanceProfile sampleBaseState true false) true false)
          true false).successStreak = 0)
    ∧ ((updatePerformanceProfile
        { sampleBaseState with performanceMode := pyOf "fast" } false true).performanceMode
          = pyOf "normal")
    ∧ ((updatePerformanceProfile
        { sampleBaseState with performanceMode := pyOf "fast" } true true).performanceMode
          = pyOf "normal")
    ∧ ((updatePerformanceProfile
        { sampleBaseState with performanceMode := pyOf "fast", searchStats := [13] }
        true false).performanceMode = pyOf "normal") := by
  refine ⟨?_, ?_, ?_, ?_⟩
  · exact claim_C5_mode_transitions.1 sampleBaseState rfl rfl rfl
  · exact (claim_C5_mode_transitions.2.1
      { sampleBaseState with performanceMode := pyOf "fast" } true rfl).1
  · exact (claim_C5_mode_transitions.2.2.1
      { sampleBaseState with performanceMode := pyOf "fast" } rfl).1
  · exact (claim_C5_mode_transitions.2.2.2
      { sampleBaseState with performanceMode := pyOf "fast", searchStats := [13] }
      13 rfl (by norm_num [averageStageTime]) (by norm_num)).1

/-- Normalized failure reason (`reason or "未知原因"`). -/
def reasonTextOf (reason : Option PyStr) : PyStr :=
  match reason with
  | none => pyOf "未知原因"
  | some r => if r.isEmpty then pyOf "未知原因" else r

/-- The two reasons treated as decode/parse failures by
`_register_direct_search_failure`. -/
def isParseFailReason (r : PyStr) : Bool :=
  r = pyOf "解析失败" || r = pyOf "未解析到Token"

/-- First mutation of `_register_direct_search_failure`: bump the counter. -/
def rdsfBump (st : ProcState) : ProcState :=
  { st with directSearchFailures := st.directSearchFailures + 1 }

/-- Second mutation: two or more cumulative failures with a parse-type reason
clear the template. -/
def rdsfClearTemplate (st : ProcState) (reasonText : PyStr) : ProcState :=
  if st.directSearchFailures ≥ 2 ∧ isParseFailReason reasonText then
    { st with directSearchTemplate := none }
  else st

/-- Third mutation: a parse-type reason with a truthy identifier adds it to
the denylist (if not already present). -/
def rdsfBlocklist (st : ProcState) (reasonText : PyStr) (patent : Option PyStr) : ProcState :=
  match patent with
  | some p =>
    if !p.isEmpty && isParseFailReason reasonText then
      if p ∈ st.directSearchBlocklist then st
      else { st with directSearchBlocklist := st.directSearchBlocklist ++ [p] }
    else st
  | none => st

/-- Fourth mutation: three or more cumulative failures set the
circuit-breaker cooldown `max(180, direct_search_timeout * 10)` from now. -/
def rdsfCooldown (st : ProcState) (now : ℚ) : ProcState :=
  if st.directSearchFailures ≥ 3 then
    { st with directSearchDisabledUntil := now + max 180 (st.directSearchTimeout * 10) }
  else st

/-- Model of `_register_direct_search_failure`: the four mutations in the
order the source performs them (all condition checks read the
already-bumped counter, as the Python locals do). -/
def registerDirectSearchFailure (st : ProcState) (reason : Option PyStr)
    (patent : Option PyStr) (now : ℚ) : ProcState :=
  rdsfCooldown
    (rdsfBlocklist (rdsfClearTemplate (rdsfBump st) (reasonTextOf reason))
      (reasonTextOf reason) patent)
    now

/-- Model of the guard section of `_direct_fetch_tokens` (lines 267-277): a
denylisted identifier, a missing template, or an unelapsed cooldown all yield
`None` immediately; an elapsed cooldown is cleared (with the failure counter)
before the remainder of the function — the actual template replay, modelled
by the `rest` continuation — runs. -/
def directFetchTokens (rest : ProcState → Option TokenDict × ProcState)
    (st : ProcState) (now : ℚ) (patent : PyStr) : Option TokenDict × ProcState :=
  if patent ∈ st.directSearchBlocklist then (none, st)
  else if st.directSearchTemplate.isNone then (none, st)
  else if st.directSearchDisabledUntil ≠ 0 then
    if now < st.directSearchDisabledUntil then (none, st)
    else rest { st with directSearchDisabledUntil := 0, directSearchFailures := 0 }
  else rest st

theorem rdsfClearTemplate_failures (st : ProcState) (r : PyStr) :
    (rdsfClearTemplate st r).directSearchFailures = st.directSearchFailures := by
  unfold rdsfClearTemplate; split <;> rfl

theorem rdsfClearTemplate_timeout (st : ProcState) (r : PyStr) :
    (rdsfClearTemplate st r).directSearchTimeout = st.directSearchTimeout := by
  unfold rdsfClearTemplate; split <;> rfl

theorem rdsfClearTemplate_blocklist (st : ProcState) (r : PyStr) :
    (rdsfClearTemplate st r).directSearchBlocklist = st.directSearchBlocklist := by
  unfold rdsfClearTemplate; split <;> rfl

theorem rdsfBlocklist_failures (st : ProcState) (r : PyStr) (p : Option PyStr) :
    (rdsfBlocklist st r p).directSearchFailures = st.directSearchFailures := by
  unfold rdsfBlocklist
  rcases p with _ | p
  · rfl
  · dsimp only; split
    · split <;> rfl
    · rfl

theorem rdsfBlocklist_timeout (st : ProcState) (r : PyStr) (p : Option PyStr) :
    (rdsfBlocklist st r p).directSearchTimeout = st.directSearchTimeout := by
  unfold rdsfBlocklist
  rcases p with _ | p
  · rfl
  · dsimp only; split
    · split <;> rfl
    · rfl

theorem registerFailure_failures (st : ProcState) (reason patent : Option PyStr) (now : ℚ) :
    (registerDirectSearchFailure st reason patent now).directSearchFailures
      = st.directSearchFailures + 1 := by
  unfold registerDirectSearchFailure rdsfCooldown
  split <;>
    rw [rdsfBlocklist_failures, rdsfClearTemplate_failures] <;> rfl

theorem registerFailure_cooldown (st : ProcState) (reason patent : Option PyStr) (now : ℚ)
    (h : (registerDirectSearchFailure st reason patent now).directSearchFailures ≥ 3) :
    (registerDirectSearchFailure st reason patent now).directSearchDisabledUntil
      = now + max 180 (st.directSearchTimeout * 10) := by
  rw [registerFailure_failures] at h
  have hc : (rdsfBlocklist (rdsfClearTemplate (rdsfBump st) (reasonTextOf reason))
      (reasonTextOf reason) patent).directSearchFailures = st.directSearchFailures + 1 := by
    rw [rdsfBlocklist_failures, rdsfClearTemplate_failures]; rfl
  unfold registerDirectSearchFailure rdsfCooldown
  rw [if_pos (by rw [hc]; exact h)]
  rw [show ∀ s : ProcState, ∀ v : ℚ, ({ s with directSearchDisabledUntil := v } :
      ProcState).directSearchDisabledUntil = v from fun _ _ => rfl]
  rw [rdsfBlocklist_timeout, rdsfClearTemplate_timeout]
  rfl

theorem directFetch_blocked_none (rest : ProcState → Option TokenDict × ProcState)
    (st : ProcState) (now : ℚ) (patent : PyStr)
    (h0 : st.directSearchDisabledUntil ≠ 0) (h1 : now < st.directSearchDisabledUntil) :
    (directFetchTokens rest st now patent).1 = none := by
  unfold directFetchTokens
  by_cases hb : patent ∈ st.directSearchBlocklist
  · rw [if_pos hb]
  · rw [if_neg hb]
    by_cases htm : st.directSearchTemplate.isNone = true
    · rw [if_pos htm]
    · rw [if_neg htm, if_pos h0, if_pos h1]

/-- Claim C6: once the cumulative fast-path failure counter reaches 3 or
more, `_register_direct_search_failure` sets a cooldown of
`max(180, 10 * direct_search_timeout)` from now, and until that timestamp
every `_direct_fetch_tokens` call returns `None` without attempting any
template replay (for every continuation `rest`, i.e. even if a template is
still cached). -/
theorem claim_C6_circuit_breaker :
    (∀ (st : ProcState) (reason patent : Option PyStr) (now : ℚ),
      (registerDirectSearchFailure st reason patent now).directSearchFailures ≥ 3 →
      (registerDirectSearchFailure st reason patent now).directSearchDisabledUntil
        = now + max 180 (st.directSearchTimeout * 10))
    ∧ (∀ (rest : ProcState → Option TokenDict × ProcState) (st : ProcState)
        (now : ℚ) (patent : PyStr),
      st.directSearchDisabledUntil ≠ 0 → now < st.directSearchDisabledUntil →
      (directFetchTokens rest st now patent).1 = none)
    ∧ (∀ (st : ProcState) (reason patent : Option PyStr) (now : ℚ), 0 ≤ now →
      (registerDirectSearchFailure st reason patent now).directSearchFailures ≥ 3 →
      ∀ (rest : ProcState → Option TokenDict × ProcState) (t : ℚ) (q : PyStr),
        t < (registerDirectSearchFailure st reason patent now).directSearchDisabledUntil →
        (directFetchTokens rest (registerDirectSearchFailure st reason patent now) t q).1
          = none) := by
  refine ⟨registerFailure_cooldown, directFetch_blocked_none, ?_⟩
  intro st reason patent now hnow h rest t q ht
  have hd := registerFailure_cooldown st reason patent now h
  apply directFetch_blocked_none
  · rw [hd]
    have h180 : (180 : ℚ) ≤ max 180 (st.directSearchTimeout * 10) := le_max_left _ _
    intro hz
    have hpos : (0 : ℚ) < now + max 180 (st.directSearchTimeout * 10) := by linarith
    rw [hz] at hpos
    exact absurd hpos (by norm_num)
  · exact ht

/-- A concrete state two failures away from a fresh circuit breaker, with a
cached template. -/
def cbState : ProcState :=
  { sampleBaseState with
    directSearchFailures := 2
    directSearchTemplate := some ⟨pyOf "u", pyOf "POST", [], none⟩ }

/-- Witness for claim C6: from two accumulated failures, one more (of any
reason) sets the 180-time-unit cooldown, and a lookup 100 time-units later —
before the cooldown elapses, template still cached — yields `None` for an
arbitrary continuation. -/
theorem claim_C6_circuit_breaker_witness :
    (registerDirectSearchFailure cbState (some (pyOf "状态码500")) (some (pyOf "CN1"))
        1000).directSearchDisabledUntil = 1180
    ∧ (directFetchTokens (fun s => (some [], s))
        (registerDirectSearchFailure cbState (some (pyOf "状态码500")) (some (pyOf "CN1")) 1000)
        1100 (pyOf "CN2")).1 = none := by
  have hfail : (registerDirectSearchFailure cbState (some (pyOf "状态码500"))
      (some (pyOf "CN1")) 1000).directSearchFailures ≥ 3 := by
    rw [registerFailure_failures]
    norm_num [cbState]
  constructor
  · rw [claim_C6_circuit_breaker.1 cbState _ _ 1000 hfail]
    norm_num [cbState, sampleBaseState]
  · exact claim_C6_circuit_breaker.2.2 cbState _ _ 1000 (by norm_num) hfail _ 1100 (pyOf "CN2")
      (by rw [claim_C6_circuit_breaker.1 cbState _ _ 1000 hfail]
          norm_num [cbState, sampleBaseState])

theorem rdsfCooldown_blocklist (st : ProcState) (now : ℚ) :
    (rdsfCooldown st now).directSearchBlocklist = st.directSearchBlocklist := by
  unfold rdsfCooldown; split <;> rfl

/-- Claim C7 (counterexample): a fast-path failure recorded with the timeout
reason `脚本超时` does not add the identifier to the denylist — only the two
decode/parse reasons do. -/
theorem claim_C7_counterexample :
    ¬ (pyOf "CN100A" ∈ (registerDirectSearchFailure sampleBaseState
        (some (pyOf "脚本超时")) (some (pyOf "CN100A")) 0).directSearchBlocklist) := by
  decide

/-- Claim C7 as amended: a recorded fast-path failure adds the (non-empty)
identifier to the per-identifier denylist exactly when its reason is one of
the two decode/parse reasons (`解析失败`, `未解析到Token`) — transport,
timeout and status-code failures leave the denylist unchanged — and a
denylisted identifier is never again tried against the fast path (the lookup
returns `None` for every continuation). -/
theorem claim_C7_denylist_parse_failures_only :
    (∀ (st : ProcState) (reason : Option PyStr) (p : PyStr) (now : ℚ),
      ¬ p.isEmpty = true →
      ((p ∈ (registerDirectSearchFailure st reason (some p) now).directSearchBlocklist) ↔
        (isParseFailReason (reasonTextOf reason) = true ∨ p ∈ st.directSearchBlocklist)))
    ∧ (∀ (rest : ProcState → Option TokenDict × ProcState) (st : ProcState) (now : ℚ)
        (p : PyStr), p ∈ st.directSearchBlocklist →
      (directFetchTokens rest st now p).1 = none) := by
  constructor
  · intro st reason p now hne
    have hbl : (registerDirectSearchFailure st reason (some p) now).directSearchBlocklist
        = (rdsfBlocklist (rdsfClearTemplate (rdsfBump st) (reasonTextOf reason))
            (reasonTextOf reason) (some p)).directSearchBlocklist := by
      unfold registerDirectSearchFailure
      rw [rdsfCooldown_blocklist]
    rw [hbl]
    have hbl2 : (rdsfClearTemplate (rdsfBump st) (reasonTextOf reason)).directSearchBlocklist
        = st.directSearchBlocklist := by
      rw [rdsfClearTemplate_blocklist]; rfl
    unfold rdsfBlocklist
    dsimp only
    by_cases hp : isParseFailReason (reasonTextOf reason) = true
    · rw [if_pos (by simp [hp, hne])]
      by_cases hmem : p ∈ (rdsfClearTemplate (rdsfBump st)
          (reasonTextOf reason)).directSearchBlocklist
      · rw [if_pos hmem]
        rw [hbl2] at hmem ⊢
        simp [hp, hmem]
      · rw [if_neg hmem]
        simp only [List.mem_append, List.mem_singleton]
        simp [hbl2, hp]
    · rw [if_neg (by simp [hp])]
      rw [hbl2]
      simp [hp]
  · intro rest st now p h
    unfold directFetchTokens
    rw [if_pos h]

/-- Witness for claim C7: a parse failure does denylist its identifier, and a
denylisted identifier yields `None` from the fast-path lookup. -/
theorem claim_C7_denylist_witness :
    (pyOf "CN9" ∈ (registerDirectSearchFailure sampleBaseState (some (pyOf "解析失败"))
        (some (pyOf "CN9")) 0).directSearchBlocklist)
    ∧ (directFetchTokens (fun s => (some [], s))
        { sampleBaseState with directSearchBlocklist := [pyOf "CN9"] } 0 (pyOf "CN9")).1
        = none := by
  constructor
  · exact (claim_C7_denylist_parse_failures_only.1 sampleBaseState _ (pyOf "CN9") 0
      (by decide)).mpr (Or.inl (by decide))
  · exact claim_C7_denylist_parse_failures_only.2 _ _ 0 (pyOf "CN9") (by decide)

/-- Fuel-driven replace loop (leftmost, non-overlapping). -/
def pyStrReplaceGo : Nat → PyStr → PyStr → PyStr → PyStr
  | 0, _, _, _ => []
  | fuel + 1, s, old, new =>
    match s with
    | [] => []
    | c :: rest =>
      if old.isPrefixOf s then new ++ pyStrReplaceGo fuel (s.drop old.length) old new
      else c :: pyStrReplaceGo fuel rest old new

/-- Model of Python `s.replace(old, new)` for a non-empty pattern (the
program only replaces `"CN"` and `"-"`; Python's empty-pattern behavior is
not modelled). -/
def pyStrReplace (s old new : PyStr) : PyStr :=
  if old.isEmpty then s else pyStrReplaceGo s.length s old new

/-- Word character for the regex `\b` boundary: ASCII alphanumerics,
underscore, and (approximating Python's Unicode `\w`) any other non-ASCII
character except the punctuation the classifier itself handles (middle dot,
full-width and em dashes). -/
def pyIsWordChar (c : Char) : Bool :=
  c.isAlphanum || c = '_'
    || (0x80 ≤ c.toNat
        && !(c = Char.ofNat 0xB7 || c = Char.ofNat 0xFF0D || c = Char.ofNat 0x2014))

/-- Upper-case ASCII letter. -/
def isUpperAZ (c : Char) : Bool := 'A' ≤ c && c ≤ 'Z'

/-- Scan for `re.search(r"\b[A-Z]{2,}\b", s)`: a maximal run of at least two
upper-case letters preceded and followed by a word boundary.  The first
argument says whether the previous character was a word character. -/
def hasAcronymGo : Bool → PyStr → Bool
  | _, [] => false
  | prevWord, c :: rest =>
    if !prevWord && isUpperAZ c then
      let run := List.takeWhile isUpperAZ (c :: rest)
      match List.drop run.length (c :: rest) with
      | [] => if run.length ≥ 2 then true else hasAcronymGo (pyIsWordChar c) rest
      | a :: _ =>
        if run.length ≥ 2 && !pyIsWordChar a then true
        else hasAcronymGo (pyIsWordChar c) rest
    else hasAcronymGo (pyIsWordChar c) rest

/-- The organisation-keyword list of `is_organization`, transcribed from the
source. -/
def orgKeywords : List PyStr :=
  [pyOf "有限公司", pyOf "股份有限公司", pyOf "有限责任公司", pyOf "公司", pyOf "集团",
   pyOf "股份", pyOf "企业", pyOf "厂", pyOf "工厂", pyOf "制造", pyOf "科技",
   pyOf "技术", pyOf "工业", pyOf "实业", pyOf "控股", pyOf "投资", pyOf "贸易",
   pyOf "商贸", pyOf "电子", pyOf "信息", pyOf "网络", pyOf "软件", pyOf "大学",
   pyOf "学院", pyOf "研究所", pyOf "研究院", pyOf "研究中心", pyOf "实验室",
   pyOf "中心", pyOf "学校", pyOf "院校", pyOf "院", pyOf "所", pyOf "校",
   pyOf "医院", pyOf "Limited", pyOf "Ltd", pyOf "Inc", pyOf "Corp",
   pyOf "Corporation", pyOf "Company", pyOf "Co", pyOf "Group", pyOf "Enterprise",
   pyOf "Industries", pyOf "Industrial", pyOf "Manufacturing", pyOf "Technology",
   pyOf "Technologies", pyOf "Systems", pyOf "Solutions", pyOf "Services",
   pyOf "International", pyOf "Global", pyOf "Worldwide", pyOf "Holdings",
   pyOf "Partners", pyOf "University", pyOf "College", pyOf "Institute",
   pyOf "Laboratory", pyOf "Lab", pyOf "Research", pyOf "Center", pyOf "Centre",
   pyOf "Academy", pyOf "School", pyOf "Hospital", pyOf "GmbH", pyOf "AG",
   pyOf "KGaA", pyOf "KG", pyOf "SE", pyOf "SA", pyOf "SAS", pyOf "SARL",
   pyOf "BV", pyOf "NV"]

/-- The known-company set of `is_organization` (compared lower-cased). -/
def knownCompanies : List PyStr :=
  [pyOf "snecma", pyOf "safran", pyOf "airbus", pyOf "boeing", pyOf "thales",
   pyOf "nokia", pyOf "samsung", pyOf "sony", pyOf "panasonic", pyOf "toshiba",
   pyOf "hitachi", pyOf "mitsubishi", pyOf "toyota", pyOf "basf", pyOf "bayer",
   pyOf "siemens", pyOf "volkswagen", pyOf "bmw", pyOf "mercedes"]

/-- Model of Python `str.isupper()` (ASCII cased characters; the classifier's
inputs of record are names, and no claim depends on non-ASCII casing). -/
def pyStrIsUpper (s : PyStr) : Bool :=
  s.any Char.isUpper && !s.any Char.isLower

/-- Model of Python `str.isalpha()` (ASCII letters, with non-ASCII characters
approximated as alphabetic). -/
def pyStrIsAlpha (s : PyStr) : Bool :=
  !s.isEmpty && s.all (fun c => c.isAlpha || 0x80 ≤ c.toNat)

/-- Model of `is_organization` on a string: keyword containment, the
all-caps-acronym regex, designated punctuation, a trailing digit on the
stripped name, a short all-upper alphabetic token, or membership in the
known-company set. -/
def isOrganizationStr (name : PyStr) : Bool :=
  if name.isEmpty then false
  else if orgKeywords.any (fun kw => pyContains name kw) then true
  else if hasAcronymGo false name then true
  else if [Char.ofNat 0x26, Char.ofNat 0xB7, Char.ofNat 0xFF0D, Char.ofNat 0x2014,
      Char.ofNat 0x2D].any (fun sym => sym ∈ name) then true
  else if (match (pyStrip name).getLast? with
      | some c => c.isDigit
      | none => false) then true
  else if (pyStrIsUpper (pyStrip name) && decide (3 ≤ (pyStrip name).length)
      && decide ((pyStrip name).length ≤ 12) && pyStrIsAlpha (pyStrip name)
      && !([' ', '-', '.'].any (fun ch => ch ∈ pyStrip name))) then true
  else if knownCompanies.any (fun kc => pyLower (pyStrip name) = kc) then true
  else false

/-- Model of `is_organization` on an arbitrary payload value.  A falsy value
is not an organisation; a string runs the full heuristic; a list or dict can
satisfy the keyword loop through Python's membership test, but then reaches
`re.search` on a non-string, which raises (`none`); any other truthy value
raises at the first `in` test. -/
def isOrganizationJ : JVal → Option Bool
  | v =>
    if ¬ pyTruthy v then some false
    else
      match v with
      | .jstr s => some (isOrganizationStr s)
      | .jarr xs =>
        if orgKeywords.any (fun kw => xs.any (fun x => jvalBeq x (.jstr kw))) then some true
        else none
      | .jobj fs =>
        if orgKeywords.any (fun kw => jObjHasKey fs kw) then some true
        else none
      | _ => none

/-- File-system oracle for the PDF examiner fallback: whether the `pdfs`
folder exists, and the base names of files matching `{patent_no}_*.pdf` in
glob order. -/
structure FsOracle where
  pdfsFolderExists : Bool
  matchingFiles : PyStr → List PyStr

/-- Model of `find_examiner_from_pdf_files`: only for invention applications,
take the first matching file name, cut the `.pdf` suffix, split on `_`, and
return the trailing segment when there are at least two segments. -/
def findExaminerFromPdfFiles (fs : FsOracle) (patentNo patentType : PyStr) : PyStr :=
  if ¬ patentType = pyOf "发明申请" then []
  else if ¬ fs.pdfsFolderExists then []
  else
    match fs.matchingFiles patentNo with
    | [] => []
    | f :: _ =>
      let namePart := f.take (f.length - 4)
      let parts := splitOnPred (fun c => c = '_') namePart
      if parts.length ≥ 2 then parts.getLastD [] else []

/-- Walk `axisSortMap.items()` for an entry whose `axisName` equals `申请日`
and whose `axisDate` is truthy; `none` is a raised error (non-string date),
`some none` means no entry assigned a date, `some (some d)` is the
separator-stripped date. -/
def findAppDate : List (PyStr × JVal) → Option (Option PyStr)
  | [] => some none
  | (_, di) :: rest =>
    match di with
    | .jobj fs =>
      if jvalBeq (jObjGetD fs (pyOf "axisName") JVal.jnull) (.jstr (pyOf "申请日")) then
        let ad := jObjGetD fs (pyOf "axisDate") (.jstr [])
        if pyTruthy ad then
          match ad with
          | .jstr s => some (some (pyStrReplace s (pyOf "-") []))
          | _ => none
        else findAppDate rest
      else findAppDate rest
    | _ => findAppDate rest

/-- Walk `otherBibliographicItems` for a dict item whose `name` is `审查员`
with a truthy `value`. -/
def findExaminerItems : List JVal → Option JVal
  | [] => none
  | item :: rest =>
    match item with
    | .jobj fs =>
      if jvalBeq (jObjGetD fs (pyOf "name") (.jstr [])) (.jstr (pyOf "审查员"))
          && pyTruthy (jObjGetD fs (pyOf "value") (.jstr [])) then
        some (jObjGetD fs (pyOf "value") (.jstr []))
      else findExaminerItems rest
    | _ => findExaminerItems rest

/-- First applicant: the head of `bibliographicItems.apRoot`, kept only when
truthy and classified as an organisation; `none` is a raised classifier
error. -/
def computeFirstApplicant (biblio : JVal) : Option JVal :=
  match biblio with
  | .jobj bf =>
    match jObjGetD bf (pyOf "apRoot") (.jarr []) with
    | .jarr (first :: _) =>
      if pyTruthy first then
        match isOrganizationJ first with
        | none => none
        | some true => some first
        | some false => some (.jstr [])
      else some (.jstr [])
    | _ => some (.jstr [])
  | _ => some (.jstr [])

/-- Extract `container[innerKey]` when the container under `outerKey` is a
dict, then pass it through `len(...)` (the debug print), which raises on
un-sized values. -/
def computeLenChecked (df : List (PyStr × JVal)) (outerKey innerKey : PyStr) : Option JVal :=
  match jObjGetD df outerKey (.jobj []) with
  | .jobj sf =>
    let v := jObjGetD sf innerKey (.jstr [])
    match pyLen v with
    | none => none
    | some _ => some v
  | _ => some (.jstr [])

/-- The inventors field: `bibliographicItems.in_or` when the former is a
dict, else the empty string. -/
def computeInventors (biblio : JVal) : JVal :=
  match biblio with
  | .jobj bf => jObjGetD bf (pyOf "in_or") (.jstr [])
  | _ => .jstr []

/-- The examiner field: the first truthy `审查员` entry of
`otherBibliographicItems`, with the PDF-filename fallback for invention
applications. -/
def computeExaminer (fs : FsOracle) (df : List (PyStr × JVal))
    (patentNo patentType : PyStr) : JVal :=
  let examiner0 := match jObjGetD df (pyOf "otherBibliographicItems") (.jarr []) with
    | .jarr items2 => (findExaminerItems items2).getD (.jstr [])
    | _ => .jstr []
  if ¬ pyTruthy examiner0 ∧ patentType = pyOf "发明申请" then
    JVal.jstr (findExaminerFromPdfFiles fs patentNo patentType)
  else examiner0

/-- Model of `parse_patent_json_for_details`: extract the six payload-derived
fields (each individually optional) and assemble the nine-key record in
source order; `none` models an exception escaping to the caller's handler. -/
def parsePatentJsonForDetails (fs : FsOracle) (df : List (PyStr × JVal))
    (patentNo patentType applicationNumber : PyStr) : Option (List (PyStr × JVal)) :=
  match jObjGetD df (pyOf "axisSortMap") (.jobj []) with
  | .jobj items =>
    match findAppDate items with
    | none => none
    | some dateOpt =>
      match computeFirstApplicant (jObjGetD df (pyOf "bibliographicItems") (.jobj [])) with
      | none => none
      | some firstApplicant =>
        match computeLenChecked df (pyOf "summaryInformation") (pyOf "ab_cn") with
        | none => none
        | some abstractVal =>
          match computeLenChecked df (pyOf "firstClaim") (pyOf "first_claim_or") with
          | none => none
          | some firstClaim =>
            some [(pyOf "patent_no", .jstr patentNo),
              (pyOf "patent_type", .jstr patentType),
              (pyOf "application_date", .jstr (dateOpt.getD [])),
              (pyOf "application_number", .jstr applicationNumber),
              (pyOf "inventors",
                computeInventors (jObjGetD df (pyOf "bibliographicItems") (.jobj []))),
              (pyOf "first_applicant", firstApplicant),
              (pyOf "abstract", abstractVal),
              (pyOf "examiner", computeExaminer fs df patentNo patentType),
              (pyOf "first_claim", firstClaim)]
  | _ => none

/-- One HTTP response as the program sees it: the status code and the result
of `response.json()` (`none` when that raises). -/
structure HttpResp where
  statusCode : Nat
  body : Option JVal

/-- The patent-type code mapping (`type_map`). -/
def typeMapLookup (pt : JVal) : PyStr :=
  if jvalBeq pt (.jstr (pyOf "1")) then pyOf "发明申请"
  else if jvalBeq pt (.jstr (pyOf "2")) then pyOf "实用新型"
  else if jvalBeq pt (.jstr (pyOf "3")) then pyOf "外观设计"
  else if jvalBeq pt (.jstr (pyOf "4")) then pyOf "发明授权"
  else []

/-- A value Python can slice with `[:20]` (str or list). -/
def canSlice : JVal → Bool
  | .jstr _ => true
  | .jarr _ => true
  | _ => false

/-- Whether an endpoint response reports success: transport succeeded, HTTP
status 200, JSON dict body whose `status` field is truthy. -/
def respReportsSuccess (resp : Option HttpResp) : Bool :=
  match resp with
  | none => false
  | some r =>
    r.statusCode = 200
      && (match r.body with
        | some (.jobj f) => pyTruthy (jObjGetD f (pyOf "status") JVal.jnull)
        | _ => false)

/-- The nine record keys, in the order of the source's dict literal. -/
def recordKeys : List PyStr :=
  [pyOf "patent_no", pyOf "patent_type", pyOf "application_date",
   pyOf "application_number", pyOf "inventors", pyOf "first_applicant",
   pyOf "abstract", pyOf "examiner", pyOf "first_claim"]

theorem computeFirstApplicant_ne_null (biblio : JVal) (v : JVal)
    (h : computeFirstApplicant biblio = some v) : ¬ v = JVal.jnull := by
  unfold computeFirstApplicant at h
  split at h
  · split at h
    · split at h
      · split at h
        · exact absurd h (by simp)
        · cases h
          intro hv
          subst hv
          simp_all [pyTruthy]
        · cases h; simp
      · cases h; simp
    · cases h; simp
  · cases h; simp

theorem computeLenChecked_ne_null (df : List (PyStr × JVal)) (k1 k2 : PyStr) (v : JVal)
    (h : computeLenChecked df k1 k2 = some v) : ¬ v = JVal.jnull := by
  simp only [computeLenChecked] at h
  split at h
  · split at h
    · exact absurd h (by simp)
    · rename_i hlen
      cases h
      intro hv
      rw [hv] at hlen
      simp [pyLen] at hlen
  · cases h; simp

theorem findExaminerItems_truthy (items : List JVal) (v : JVal)
    (h : findExaminerItems items = some v) : pyTruthy v = true := by
  induction items with
  | nil => simp [findExaminerItems] at h
  | cons item rest ih =>
    unfold findExaminerItems at h
    split at h
    · rename_i fs
      split at h
      · rename_i hcond
        cases h
        simp only [Bool.and_eq_true] at hcond
        exact hcond.2
      · exact ih h
    · exact ih h

theorem computeExaminer_ne_null (fs : FsOracle) (df : List (PyStr × JVal))
    (patentNo patentType : PyStr) :
    ¬ computeExaminer fs df patentNo patentType = JVal.jnull := by
  unfold computeExaminer
  rcases hoth : jObjGetD df (pyOf "otherBibliographicItems") (JVal.jarr [])
    with _ | b | raw | str | xs | flds <;> dsimp only
  case jarr =>
    split
    · simp
    · rcases he : findExaminerItems xs with _ | v
      · simp [he]
      · have htr := findExaminerItems_truthy xs v he
        intro hv
        simp only [Option.getD] at hv
        rw [hv] at htr
        simp [pyTruthy] at htr
  all_goals (split <;> simp)

theorem parseDetails_shape (fs : FsOracle) (df : List (PyStr × JVal))
    (pno ptype appno : PyStr) (rec : List (PyStr × JVal))
    (h : parsePatentJsonForDetails fs df pno ptype appno = some rec) :
    rec.map Prod.fst = recordKeys
      ∧ jObjGet rec (pyOf "application_number") = some (JVal.jstr appno)
      ∧ ∀ k v, (k, v) ∈ rec → ¬ k = pyOf "inventors" → ¬ v = JVal.jnull := by
  unfold parsePatentJsonForDetails at h
  rcases hasm : jObjGetD df (pyOf "axisSortMap") (JVal.jobj [])
    with _ | b | raw | str | xs | items <;> rw [hasm] at h <;> try simp at h
  rcases hdate : findAppDate items with _ | dateOpt <;> rw [hdate] at h <;> try simp at h
  rcases hfa : computeFirstApplicant (jObjGetD df (pyOf "bibliographicItems") (JVal.jobj []))
    with _ | firstApplicant <;> rw [hfa] at h <;> try simp at h
  rcases habs : computeLenChecked df (pyOf "summaryInformation") (pyOf "ab_cn")
    with _ | abstractVal <;> rw [habs] at h <;> try simp at h
  rcases hfc : computeLenChecked df (pyOf "firstClaim") (pyOf "first_claim_or")
    with _ | firstClaim <;> rw [hfc] at h <;> try simp at h
  subst h
  refine ⟨rfl, rfl, ?_⟩
  intro k v hmem hk
  simp only [List.mem_cons, List.not_mem_nil, or_false, Prod.mk.injEq] at hmem
  rcases hmem with ⟨hk1, hv⟩ | ⟨hk1, hv⟩ | ⟨hk1, hv⟩ | ⟨hk1, hv⟩ | ⟨hk1, hv⟩
    | ⟨hk1, hv⟩ | ⟨hk1, hv⟩ | ⟨hk1, hv⟩ | ⟨hk1, hv⟩
  · subst hv; simp
  · subst hv; simp
  · subst hv; simp
  · subst hv; simp
  · exact absurd hk1 hk
  · subst hv
    exact computeFirstApplicant_ne_null _ _ hfa
  · subst hv
    exact computeLenChecked_ne_null _ _ _ _ habs
  · subst hv
    exact computeExaminer_ne_null _ _ _ _
  · subst hv
    exact computeLenChecked_ne_null _ _ _ _ hfc

/-- Envelope checks shared by both endpoint calls: transport succeeded, HTTP
status 200, JSON dict body with truthy `status`; returns the body's fields. -/
def respStatusFields (resp : Option HttpResp) : Option (List (PyStr × JVal)) :=
  match resp with
  | none => none
  | some r =>
    if ¬ r.statusCode = 200 then none
    else
      match r.body with
      | some (.jobj rf) =>
        if ¬ pyTruthy (jObjGetD rf (pyOf "status") JVal.jnull) then none
        else some rf
      | _ => none

/-- Model of `fetch_details_immediately`: require a truthy (and printable)
`pnk`; pass the common-info response (`commonResp`) through the envelope
checks and require a dict `data` carrying `pt`/`an`; same for the base-info
response (`baseResp`) plus a truthy dict `data`; require `an` to be a string,
strip its `CN` occurrences when it starts with `CN`; then parse the payload
into the record.  `none` anywhere models the caught exception / early return
of the source. -/
def fetchDetailsImmediately (commonResp baseResp : Option HttpResp) (fs : FsOracle)
    (tokens : TokenDict) (patentNo : PyStr) : Option (List (PyStr × JVal)) :=
  if ¬ pyTruthy (jObjGetD tokens (pyOf "pnk") (.jstr [])) then none
  else if ¬ canSlice (jObjGetD tokens (pyOf "pnk") (.jstr [])) then none
  else
    match respStatusFields commonResp with
    | none => none
    | some rf =>
      match jObjGetD rf (pyOf "data") (.jobj []) with
      | .jobj cf =>
        match respStatusFields baseResp with
        | none => none
        | some rf2 =>
          match jObjGetD rf2 (pyOf "data") (.jobj []) with
          | .jobj dfFields =>
            if dfFields.isEmpty then none
            else
              match jObjGetD cf (pyOf "an") (.jstr []) with
              | .jstr anStr =>
                parsePatentJsonForDetails fs dfFields patentNo
                  (typeMapLookup (jObjGetD cf (pyOf "pt") (.jstr [])))
                  (if (pyOf "CN").isPrefixOf anStr then
                    pyStrReplace anStr (pyOf "CN") []
                  else anStr)
              | _ => none
          | _ => none
      | _ => none

theorem respStatusFields_success (resp : Option HttpResp) (rf : List (PyStr × JVal))
    (h : respStatusFields resp = some rf) : respReportsSuccess resp = true := by
  unfold respStatusFields at h
  split at h
  · exact absurd h (by simp)
  · rename_i r
    split at h
    · exact absurd h (by simp)
    · rename_i hsc
      split at h
      · rename_i rfx hbody
        split at h
        · exact absurd h (by simp)
        · rename_i hst
          simp [respReportsSuccess, hbody, not_not.mp hsc, not_not.mp hst]
      · exact absurd h (by simp)

/-- Inversion of a successful fetch: both envelopes passed, the common `data`
block is a dict whose `an` is a string, the base `data` block is a truthy
dict, and the record came from `parse_patent_json_for_details` applied to it
with the mapped type code and the `CN`-stripped application number. -/
theorem fetchDetails_inversion (commonResp baseResp : Option HttpResp) (fs : FsOracle)
    (tokens : TokenDict) (pno : PyStr) (rec : List (PyStr × JVal))
    (h : fetchDetailsImmediately commonResp baseResp fs tokens pno = some rec) :
    ∃ (rf cf rf2 dfFields : List (PyStr × JVal)) (anStr : PyStr),
      respStatusFields commonResp = some rf
      ∧ jObjGetD rf (pyOf "data") (.jobj []) = .jobj cf
      ∧ respStatusFields baseResp = some rf2
      ∧ jObjGetD rf2 (pyOf "data") (.jobj []) = .jobj dfFields
      ∧ dfFields.isEmpty = false
      ∧ jObjGetD cf (pyOf "an") (.jstr []) = .jstr anStr
      ∧ parsePatentJsonForDetails fs dfFields pno
          (typeMapLookup (jObjGetD cf (pyOf "pt") (.jstr [])))
          (if (pyOf "CN").isPrefixOf anStr then pyStrReplace anStr (pyOf "CN") []
            else anStr)
          = some rec := by
  unfold fetchDetailsImmediately at h
  split at h
  · exact absurd h (by simp)
  · split at h
    · exact absurd h (by simp)
    · rcases hrf : respStatusFields commonResp with _ | rf <;> rw [hrf] at h <;>
        dsimp only at h
      · exact absurd h (by simp)
      · rcases hdata : jObjGetD rf (pyOf "data") (JVal.jobj [])
          with _ | b | raw | str | xs | cf <;> rw [hdata] at h <;> dsimp only at h
        · exact absurd h (by simp)
        · exact absurd h (by simp)
        · exact absurd h (by simp)
        · exact absurd h (by simp)
        · exact absurd h (by simp)
        · rcases hrf2 : respStatusFields baseResp with _ | rf2 <;> rw [hrf2] at h <;>
            dsimp only at h
          · exact absurd h (by simp)
          · rcases hdata2 : jObjGetD rf2 (pyOf "data") (JVal.jobj [])
              with _ | b2 | raw2 | str2 | xs2 | dfFields <;> rw [hdata2] at h <;>
              dsimp only at h
            · exact absurd h (by simp)
            · exact absurd h (by simp)
            · exact absurd h (by simp)
            · exact absurd h (by simp)
            · exact absurd h (by simp)
            · split at h
              · exact absurd h (by simp)
              · rename_i hne
                rcases han : jObjGetD cf (pyOf "an") (JVal.jstr [])
                  with _ | b3 | raw3 | anStr | xs3 | fl3 <;> rw [han] at h <;>
                  dsimp only at h
                · exact absurd h (by simp)
                · exact absurd h (by simp)
                · exact absurd h (by simp)
                · refine ⟨rf, cf, rf2, dfFields, anStr, ?_, ?_, ?_, ?_, ?_, ?_, ?_⟩ <;>
                    first
                    | rfl
                    | exact hdata
                    | exact hdata2
                    | exact han
                    | (simpa using hne)
                    | exact h
                · exact absurd h (by simp)
                · exact absurd h (by simp)

/-- Claim C8 as amended: every record the fetch path returns has exactly the
nine keys in source order, is produced only when both API calls report
success (HTTP 200, dict body, truthy `status`), and every field except
`inventors` is non-null; `inventors` is copied verbatim from the payload and
can be null. -/
theorem claim_C8_record_shape (commonResp baseResp : Option HttpResp) (fs : FsOracle)
    (tokens : TokenDict) (pno : PyStr) (rec : List (PyStr × JVal))
    (h : fetchDetailsImmediately commonResp baseResp fs tokens pno = some rec) :
    rec.map Prod.fst = recordKeys
      ∧ respReportsSuccess commonResp = true
      ∧ respReportsSuccess baseResp = true
      ∧ ∀ k v, (k, v) ∈ rec → ¬ k = pyOf "inventors" → ¬ v = JVal.jnull := by
  obtain ⟨rf, cf, rf2, dfFields, anStr, hrf, _, hrf2, _, _, _, hparse⟩ :=
    fetchDetails_inversion commonResp baseResp fs tokens pno rec h
  have hshape := parseDetails_shape _ _ _ _ _ _ hparse
  exact ⟨hshape.1, respStatusFields_success _ _ hrf, respStatusFields_success _ _ hrf2,
    hshape.2.2⟩

/-- Specification-side statement of the claim: the application number with
every (leftmost, non-overlapping) occurrence of the substring `CN` removed —
not only a leading prefix. -/
def removeAllCN : PyStr → PyStr
  | [] => []
  | 'C' :: 'N' :: rest => removeAllCN rest
  | c :: rest => c :: removeAllCN rest


theorem removeAllCN_single (c : Char) : removeAllCN [c] = [c] := by
  rw [removeAllCN.eq_def]
  split
  · simp_all
  · simp_all
  · rename_i c0 rest0 heq
    rw [List.cons.injEq] at heq
    rw [← heq.1, ← heq.2]
    rfl

theorem removeAllCN_cons_ne (c1 c2 : Char) (t : PyStr) (h : ¬(c1 = 'C' ∧ c2 = 'N')) :
    removeAllCN (c1 :: c2 :: t) = c1 :: removeAllCN (c2 :: t) := by
  rw [removeAllCN.eq_def]
  split
  · simp_all
  · rename_i rest heq
    rw [List.cons.injEq, List.cons.injEq] at heq
    exact absurd ⟨heq.1, heq.2.1⟩ h
  · rename_i c rest heq
    rw [List.cons.injEq] at heq
    rw [← heq.1, ← heq.2]

theorem pyStrReplaceGo_CN :
    ∀ (fuel : Nat) (s : PyStr), s.length ≤ fuel →
      pyStrReplaceGo fuel s (pyOf "CN") [] = removeAllCN s := by
  intro fuel
  induction fuel with
  | zero =>
    intro s hs
    interval_cases hn : s.length
    · rw [List.length_eq_zero] at hn; subst hn; rfl
  | succ n ih =>
    intro s hs
    match s with
    | [] => rfl
    | [c1] =>
      have hpre : (pyOf "CN").isPrefixOf [c1] = false := by
        simp [pyOf, List.isPrefixOf]
      simp only [pyStrReplaceGo, hpre, Bool.false_eq_true, if_false]
      rw [ih [] (by simp), removeAllCN_single]
      rfl
    | c1 :: c2 :: t =>
      simp only [List.length_cons] at hs
      by_cases hc : c1 = 'C' ∧ c2 = 'N'
      · obtain ⟨h1, h2⟩ := hc
        subst h1; subst h2
        have hpre : (pyOf "CN").isPrefixOf ('C' :: 'N' :: t) = true := by
          simp [pyOf, List.isPrefixOf]
        simp only [pyStrReplaceGo, hpre, if_true]
        have hdrop : ('C' :: 'N' :: t).drop (pyOf "CN").length = t := rfl
        rw [hdrop, List.nil_append, ih t (by omega)]
        rfl
      · have hpre : (pyOf "CN").isPrefixOf (c1 :: c2 :: t) = false := by
          have hne : ¬('C' = c1 ∧ 'N' = c2) := fun p => hc ⟨p.1.symm, p.2.symm⟩
          simp only [pyOf, List.isPrefixOf, Bool.and_eq_false_iff]
          by_cases ha : 'C' = c1
          · subst ha
            rcases hne2 : ('N' == c2) with _ | _
            · simp [List.isPrefixOf]
            · exact absurd ⟨rfl, beq_iff_eq.mp hne2⟩ hne
          · simp [beq_false_of_ne ha]
        simp only [pyStrReplaceGo, hpre, Bool.false_eq_true, if_false]
        rw [ih (c2 :: t) (by simp; omega), removeAllCN_cons_ne c1 c2 t hc]

theorem pyStrReplace_CN (s : PyStr) : pyStrReplace s (pyOf "CN") [] = removeAllCN s := by
  unfold pyStrReplace
  rw [if_neg (by simp [pyOf])]
  exact pyStrReplaceGo_CN s.length s (Nat.le_refl _)

/-- The `an` value the common-info call delivers (when it is a string). -/
def commonAnString (resp : Option HttpResp) : Option PyStr :=
  match respStatusFields resp with
  | some rf =>
    match jObjGetD rf (pyOf "data") (.jobj []) with
    | .jobj cf => asPyString (jObjGetD cf (pyOf "an") (.jstr []))
    | _ => none
  | none => none

/-- Claim C10: in every returned record, `application_number` equals the
common-info `an` with every (leftmost, non-overlapping) occurrence of the
substring `CN` removed when `an` starts with `CN` — not only the leading
prefix — and equals `an` unchanged otherwise. -/
theorem claim_C10_application_number (commonResp baseResp : Option HttpResp)
    (fs : FsOracle) (tokens : TokenDict) (pno : PyStr) (rec : List (PyStr × JVal))
    (h : fetchDetailsImmediately commonResp baseResp fs tokens pno = some rec) :
    ∃ anStr : PyStr, commonAnString commonResp = some anStr
      ∧ jObjGet rec (pyOf "application_number")
          = some (JVal.jstr
              (if (pyOf "CN").isPrefixOf anStr then removeAllCN anStr else anStr)) := by
  obtain ⟨rf, cf, rf2, dfFields, anStr, hrf, hdata, hrf2, hdata2, hne, han, hparse⟩ :=
    fetchDetails_inversion commonResp baseResp fs tokens pno rec h
  refine ⟨anStr, ?_, ?_⟩
  · unfold commonAnString
    rw [hrf]
    dsimp only
    rw [hdata]
    dsimp only
    rw [han]
    rfl
  · have h3 := (parseDetails_shape _ _ _ _ _ _ hparse).2.1
    rw [← pyStrReplace_CN anStr]
    exact h3

/-- Concrete common-info response: success envelope with a utility-model type
code and application number `CN123`. -/
def c8CommonResp : Option HttpResp :=
  some ⟨200, some (JVal.jobj [(pyOf "status", JVal.jbool true),
    (pyOf "data", JVal.jobj [(pyOf "pt", JVal.jstr (pyOf "2")),
      (pyOf "an", JVal.jstr (pyOf "CN123"))])])⟩

/-- Concrete base-info response whose payload maps `in_or` to null. -/
def c8BaseResp : Option HttpResp :=
  some ⟨200, some (JVal.jobj [(pyOf "status", JVal.jbool true),
    (pyOf "data", JVal.jobj [(pyOf "bibliographicItems",
      JVal.jobj [(pyOf "in_or", JVal.jnull)])])])⟩

/-- File-system oracle with no `pdfs` folder. -/
def c8Fs : FsOracle := ⟨false, fun _ => []⟩

/-- Token dict carrying only a `pnk`. -/
def c8Tokens : TokenDict := [(pyOf "pnk", JVal.jstr (pyOf "k"))]

/-- The record the fetch path returns for the `c8` oracles. -/
def c8Record : List (PyStr × JVal) :=
  [(pyOf "patent_no", JVal.jstr (pyOf "CN123A")),
   (pyOf "patent_type", JVal.jstr (pyOf "实用新型")),
   (pyOf "application_date", JVal.jstr []),
   (pyOf "application_number", JVal.jstr (pyOf "123")),
   (pyOf "inventors", JVal.jnull),
   (pyOf "first_applicant", JVal.jstr []),
   (pyOf "abstract", JVal.jstr []),
   (pyOf "examiner", JVal.jstr []),
   (pyOf "first_claim", JVal.jstr [])]

/-- Claim C8 (counterexample): with a base payload whose `in_or` is null,
both calls succeed and the fetch path does return a record — whose
`inventors` field is null, contradicting the claim that every field of a
returned record is non-null. -/
theorem claim_C8_counterexample :
    fetchDetailsImmediately c8CommonResp c8BaseResp c8Fs c8Tokens (pyOf "CN123A")
        = some c8Record
      ∧ jObjGet c8Record (pyOf "inventors") = some JVal.jnull := ⟨rfl, rfl⟩

/-- Witness for claim C8 as amended, at the `c8` oracles. -/
theorem claim_C8_record_shape_witness :
    c8Record.map Prod.fst = recordKeys
      ∧ respReportsSuccess c8CommonResp = true
      ∧ respReportsSuccess c8BaseResp = true
      ∧ ∀ k v, (k, v) ∈ c8Record → ¬ k = pyOf "inventors" → ¬ v = JVal.jnull :=
  claim_C8_record_shape c8CommonResp c8BaseResp c8Fs c8Tokens (pyOf "CN123A") c8Record rfl

/-- Concrete common-info response whose `an` contains two `CN` substrings. -/
def c10CommonResp : Option HttpResp :=
  some ⟨200, some (JVal.jobj [(pyOf "status", JVal.jbool true),
    (pyOf "data", JVal.jobj [(pyOf "pt", JVal.jstr (pyOf "1")),
      (pyOf "an", JVal.jstr (pyOf "CN12CN34A"))])])⟩

/-- Concrete base-info response with a plain inventors string. -/
def c10BaseResp : Option HttpResp :=
  some ⟨200, some (JVal.jobj [(pyOf "status", JVal.jbool true),
    (pyOf "data", JVal.jobj [(pyOf "bibliographicItems",
      JVal.jobj [(pyOf "in_or", JVal.jstr (pyOf "张三"))])])])⟩

/-- File-system oracle with one matching PDF whose name carries an examiner
segment. -/
def c10Fs : FsOracle := ⟨true, fun p => [p ++ pyOf "_王五.pdf"]⟩

/-- The record the fetch path returns for the `c10` oracles. -/
def c10Record : List (PyStr × JVal) :=
  [(pyOf "patent_no", JVal.jstr (pyOf "P")),
   (pyOf "patent_type", JVal.jstr (pyOf "发明申请")),
   (pyOf "application_date", JVal.jstr []),
   (pyOf "application_number", JVal.jstr (pyOf "1234A")),
   (pyOf "inventors", JVal.jstr (pyOf "张三")),
   (pyOf "first_applicant", JVal.jstr []),
   (pyOf "abstract", JVal.jstr []),
   (pyOf "examiner", JVal.jstr (pyOf "王五")),
   (pyOf "first_claim", JVal.jstr [])]

/-- Witness for claim C10: `an = "CN12CN34A"` yields application number
`1234A` — both `CN` occurrences removed, not only the leading one. -/
theorem claim_C10_application_number_witness :
    jObjGet c10Record (pyOf "application_number")
      = some (JVal.jstr (pyOf "1234A")) := by
  obtain ⟨anStr, h1, h2⟩ := claim_C10_application_number c10CommonResp c10BaseResp c10Fs
    c8Tokens (pyOf "P") c10Record rfl
  have h3 : commonAnString c10CommonResp = some (pyOf "CN12CN34A") := rfl
  rw [h1] at h3
  have h4 : anStr = pyOf "CN12CN34A" := Option.some.inj h3
  subst h4
  rw [h2]
  rfl

/-- The `patent_no` field of a record (`item['patent_no']`, `none` when the
key is missing and the subscript would raise `KeyError`). -/
def recPatentNo (r : List (PyStr × JVal)) : Option JVal :=
  jObjGet r (pyOf "patent_no")

theorem parseDetails_patent_no (fs : FsOracle) (df : List (PyStr × JVal))
    (pno ptype appno : PyStr) (rec : List (PyStr × JVal))
    (h : parsePatentJsonForDetails fs df pno ptype appno = some rec) :
    recPatentNo rec = some (JVal.jstr pno) := by
  unfold parsePatentJsonForDetails at h
  rcases hasm : jObjGetD df (pyOf "axisSortMap") (JVal.jobj [])
    with _ | b | raw | str | xs | items <;> rw [hasm] at h <;> try simp at h
  rcases hdate : findAppDate items with _ | dateOpt <;> rw [hdate] at h <;> try simp at h
  rcases hfa : computeFirstApplicant (jObjGetD df (pyOf "bibliographicItems") (JVal.jobj []))
    with _ | firstApplicant <;> rw [hfa] at h <;> try simp at h
  rcases habs : computeLenChecked df (pyOf "summaryInformation") (pyOf "ab_cn")
    with _ | abstractVal <;> rw [habs] at h <;> try simp at h
  rcases hfc : computeLenChecked df (pyOf "firstClaim") (pyOf "first_claim_or")
    with _ | firstClaim <;> rw [hfc] at h <;> try simp at h
  subst h
  rfl

theorem fetchDetails_patent_no (commonResp baseResp : Option HttpResp) (fs : FsOracle)
    (tokens : TokenDict) (pno : PyStr) (rec : List (PyStr × JVal))
    (h : fetchDetailsImmediately commonResp baseResp fs tokens pno = some rec) :
    recPatentNo rec = some (JVal.jstr pno) := by
  obtain ⟨rf, cf, rf2, dfFields, anStr, _, _, _, _, _, _, hparse⟩ :=
    fetchDetails_inversion commonResp baseResp fs tokens pno rec h
  exact parseDetails_patent_no _ _ _ _ _ _ hparse

/-- One iteration's slice of the environment as `process_single_patent_realtime`
sees it: the result of `_extract_pnk_from_page` (`none` models a `None`
return), the result of `search_patent_with_guards` together with the value it
leaves in `last_search_used_fallback`, the result of
`extract_tokens_from_network` (`none` models a falsy return), the two HTTP
responses and the file-system view consumed by `fetch_details_immediately`,
and the measured stage durations. -/
structure SingleEnv where
  pnkRes : Option PyStr
  searchOk : Bool
  usedFallback : Bool
  tokensRes : Option TokenDict
  commonResp : Option HttpResp
  baseResp : Option HttpResp
  fs : FsOracle
  searchDur : ℚ
  tokenDur : ℚ
  fetchDur : ℚ

/-- Model of `process_single_patent_realtime` (lines 1508-1612): the returned
record (`none` for the `return None` paths and the caught exception) together
with the updated processor state.  In skip-search mode the function extracts
`pnk` directly, never touches the search counters and never updates the
performance profile; in the traditional mode a failed search increments
`search_fail_count` and every outcome updates the performance profile.  On a
failed search the guard's own write to `last_search_used_fallback` is dead
(the profile update passes `used_fallback=False` explicitly and the next call
resets the flag before reading it), so the model leaves the flag at the
`False` written at line 1542. -/
def processSinglePatentRealtime (st : ProcState) (patentNo : PyStr)
    (skipSearch : Bool) (env : SingleEnv) :
    Option (List (PyStr × JVal)) × ProcState :=
  if skipSearch then
    match env.pnkRes with
    | none => (none, st)
    | some pnk =>
      if pnk.isEmpty then (none, st)
      else
        let tokens : TokenDict :=
          [(pyOf "pnk", JVal.jstr pnk), (pyOf "patent_no", JVal.jstr patentNo)]
        let st1 := { st with
          tokenStats := recordStageTime st.tokenStats st.maxSpeedSamples env.tokenDur }
        match fetchDetailsImmediately env.commonResp env.baseResp env.fs tokens patentNo with
        | some rc =>
          (some rc, { st1 with
            fetchStats := recordStageTime st1.fetchStats st1.maxSpeedSamples env.fetchDur })
        | none => (none, st1)
  else
    let st0 := { st with lastSearchUsedFallback := false }
    if env.searchOk = false then
      let st1 := { st0 with searchFailCount := st0.searchFailCount + 1 }
      (none, updatePerformanceProfile st1 false false)
    else
      let st1 := { st0 with
        lastSearchUsedFallback := env.usedFallback
        searchSuccessCount := st0.searchSuccessCount + 1
        searchStats := recordStageTime st0.searchStats st0.maxSpeedSamples env.searchDur }
      match env.tokensRes with
      | none => (none, updatePerformanceProfile st1 false st1.lastSearchUsedFallback)
      | some tks =>
        if tks.isEmpty then (none, updatePerformanceProfile st1 false st1.lastSearchUsedFallback)
        else
          let tokens := pyDictInsert tks (pyOf "patent_no") (JVal.jstr patentNo)
          let st2 := { st1 with
            tokenStats := recordStageTime st1.tokenStats st1.maxSpeedSamples env.tokenDur }
          match fetchDetailsImmediately env.commonResp env.baseResp env.fs tokens patentNo with
          | some rc =>
            let st3 := { st2 with
              fetchStats := recordStageTime st2.fetchStats st2.maxSpeedSamples env.fetchDur }
            (some rc, updatePerformanceProfile st3 true st3.lastSearchUsedFallback)
          | none => (none, updatePerformanceProfile st2 false st2.lastSearchUsedFallback)

theorem processSingle_some_patent_no (st : ProcState) (p : PyStr) (sS : Bool)
    (env : SingleEnv) (rc : List (PyStr × JVal)) (st2 : ProcState)
    (h : processSinglePatentRealtime st p sS env = (some rc, st2)) :
    recPatentNo rc = some (JVal.jstr p) := by
  unfold processSinglePatentRealtime at h
  dsimp only at h
  split at h
  · split at h
    · simp at h
    · split at h
      · simp at h
      · split at h
        · rename_i pnk hne hfetch
          simp only [Prod.mk.injEq, Option.some.injEq] at h
          rw [← h.1]
          exact fetchDetails_patent_no _ _ _ _ _ _ hfetch
        · simp at h
  · split at h
    · simp at h
    · split at h
      · simp at h
      · split at h
        · simp at h
        · split at h
          · rename_i hfetch
            simp only [Prod.mk.injEq, Option.some.injEq] at h
            rw [← h.1]
            exact fetchDetails_patent_no _ _ _ _ _ _ hfetch
          · simp at h

theorem processSingle_skip_searchFail (st : ProcState) (p : PyStr)
    (env : SingleEnv) (orc : Option (List (PyStr × JVal))) (st2 : ProcState)
    (h : processSinglePatentRealtime st p true env = (orc, st2)) :
    st2.searchFailCount = st.searchFailCount := by
  unfold processSinglePatentRealtime at h
  rw [if_pos rfl] at h
  dsimp only at h
  split at h
  · cases h; rfl
  · split at h
    · cases h; rfl
    · split at h
      · cases h; rfl
      · cases h; rfl

/-- The local state of one `process_batch_realtime` run: the processor state,
the accumulating `results` list, the `failed_patents` / `unavailable_patents`
lists, the two consecutive counters, the JSON content last handed to
`save_results_realtime` (`none` when nothing was saved yet this run), and an
instrumentation field recording which identifiers were actually handed to
`process_single_patent_realtime`. -/
structure BatchState where
  proc : ProcState
  results : List (List (PyStr × JVal))
  failedPatents : List PyStr
  unavailablePatents : List PyStr
  consecutiveFailures : Nat
  consecutiveNotFound : Nat
  savedFile : Option (List (List (PyStr × JVal)))
  attempted : List PyStr

/-- The skip-unavailable branch (lines 1744-1750): record the identifier as
unavailable, reset the not-found streak, move on without processing it. -/
def batchSkipStep (p : PyStr) (bs : BatchState) : BatchState :=
  { bs with
    unavailablePatents := bs.unavailablePatents ++ [p]
    consecutiveNotFound := 0 }

/-- The browser-restart branch (lines 1753-1767) when the re-login succeeds:
only the consecutive-failure counter is reset. -/
def batchMaybeRestart (bs : BatchState) : BatchState :=
  if 3 ≤ bs.consecutiveFailures then { bs with consecutiveFailures := 0 } else bs

/-- A successful iteration (lines 1772-1779): append the record, reset both
streaks, and save the whole `results` list. -/
def batchSuccessStep (p : PyStr) (rc : List (PyStr × JVal)) (st2 : ProcState)
    (bs : BatchState) : BatchState :=
  { bs with
    proc := st2
    results := bs.results ++ [rc]
    attempted := bs.attempted ++ [p]
    consecutiveFailures := 0
    consecutiveNotFound := 0
    savedFile := some (bs.results ++ [rc]) }

/-- A failed iteration (lines 1780-1792): classify against the search-failure
counter (using the state after the single-patent call and the `failed` list
before the append), then extend the failure bookkeeping. -/
def batchFailureStep (p : PyStr) (st2 : ProcState) (bs : BatchState) : BatchState :=
  { bs with
    proc := st2
    failedPatents := bs.failedPatents ++ [p]
    attempted := bs.attempted ++ [p]
    consecutiveFailures := bs.consecutiveFailures + 1
    consecutiveNotFound :=
      if bs.failedPatents.length < st2.searchFailCount then bs.consecutiveNotFound + 1
      else 0 }

/-- Model of the `for` loop of `process_batch_realtime` (lines 1739-1847):
`i` numbers the iterations so the environment can vary per patent, and the
`relogin` oracle decides whether the re-login after a browser restart
succeeds (its failure executes the `break`).  Delays, rests and the session
refresh touch no modelled state and are omitted. -/
def processBatchLoop (sU sS : Bool) (env : Nat → SingleEnv) (relogin : Nat → Bool) :
    List PyStr → Nat → BatchState → BatchState
  | [], _, bs => bs
  | p :: rest, i, bs =>
    if sU = true ∧ 5 ≤ bs.consecutiveNotFound then
      processBatchLoop sU sS env relogin rest (i + 1) (batchSkipStep p bs)
    else if 3 ≤ bs.consecutiveFailures ∧ relogin i = false then bs
    else
      match processSinglePatentRealtime (batchMaybeRestart bs).proc p sS (env i) with
      | (some rc, st2) =>
        processBatchLoop sU sS env relogin rest (i + 1)
          (batchSuccessStep p rc st2 (batchMaybeRestart bs))
      | (none, st2) =>
        processBatchLoop sU sS env relogin rest (i + 1)
          (batchFailureStep p st2 (batchMaybeRestart bs))

/-- Model of the set comprehension at line 1709: the `patent_no` values of the
loaded records, `none` when some record lacks the key (the raised `KeyError`
is swallowed by the bare `except`, leaving the set empty). -/
def completedOf : List (List (PyStr × JVal)) → Option (List JVal)
  | [] => some []
  | r :: rest =>
    match recPatentNo r, completedOf rest with
    | some v, some vs => some (v :: vs)
    | _, _ => none

/-- Python membership `p in completed_patents` of a string in the loaded
`patent_no` values. -/
def pyMemStr (p : PyStr) (vs : List JVal) : Bool :=
  vs.any (fun v => jvalBeq (JVal.jstr p) v)

/-- Model of `process_batch_realtime` (lines 1662-1891).  `fileContents` is
the parsed prior output file (`none` when the file is absent or `json.load`
raises, leaving both `existing_results` and `completed_patents` empty; when
the loaded list has a record without `patent_no`, the comprehension's
`KeyError` leaves only `completed_patents` empty).  `login0` is the initial
`login` result.  The first component is the function's return value, the
second the final loop state. -/
def processBatchRealtime (st : ProcState) (patentList : List PyStr)
    (fileContents : Option (List (List (PyStr × JVal))))
    (skipUnavailable skipSearch login0 : Bool)
    (env : Nat → SingleEnv) (relogin : Nat → Bool) :
    List (List (PyStr × JVal)) × BatchState :=
  let existingResults := fileContents.getD []
  let completed :=
    match fileContents with
    | none => []
    | some ex => (completedOf ex).getD []
  let remaining := patentList.filter (fun p => !(pyMemStr p completed))
  let bs0 : BatchState :=
    { proc := st
      results := existingResults
      failedPatents := []
      unavailablePatents := []
      consecutiveFailures := 0
      consecutiveNotFound := 0
      savedFile := none
      attempted := [] }
  if remaining.isEmpty then ([], bs0)
  else if login0 = false then ([], bs0)
  else
    let bsF := processBatchLoop skipUnavailable skipSearch env relogin remaining 0 bs0
    (bsF.results, bsF)

theorem batchMaybeRestart_results (bs : BatchState) :
    (batchMaybeRestart bs).results = bs.results := by
  unfold batchMaybeRestart; split <;> rfl

theorem batchMaybeRestart_attempted (bs : BatchState) :
    (batchMaybeRestart bs).attempted = bs.attempted := by
  unfold batchMaybeRestart; split <;> rfl

theorem batchMaybeRestart_proc (bs : BatchState) :
    (batchMaybeRestart bs).proc = bs.proc := by
  unfold batchMaybeRestart; split <;> rfl

theorem batchMaybeRestart_notFound (bs : BatchState) :
    (batchMaybeRestart bs).consecutiveNotFound = bs.consecutiveNotFound := by
  unfold batchMaybeRestart; split <;> rfl

theorem batchMaybeRestart_unavailable (bs : BatchState) :
    (batchMaybeRestart bs).unavailablePatents = bs.unavailablePatents := by
  unfold batchMaybeRestart; split <;> rfl

theorem batchMaybeRestart_savedFile (bs : BatchState) :
    (batchMaybeRestart bs).savedFile = bs.savedFile := by
  unfold batchMaybeRestart; split <;> rfl

theorem batchLoop_cons_skip (sU sS : Bool) (env : Nat → SingleEnv) (relogin : Nat → Bool)
    (p : PyStr) (rest : List PyStr) (i : Nat) (bs : BatchState)
    (h1 : sU = true ∧ 5 ≤ bs.consecutiveNotFound) :
    processBatchLoop sU sS env relogin (p :: rest) i bs
      = processBatchLoop sU sS env relogin rest (i + 1) (batchSkipStep p bs) := by
  simp only [processBatchLoop]
  rw [if_pos h1]

theorem batchLoop_cons_break (sU sS : Bool) (env : Nat → SingleEnv) (relogin : Nat → Bool)
    (p : PyStr) (rest : List PyStr) (i : Nat) (bs : BatchState)
    (h1 : ¬ (sU = true ∧ 5 ≤ bs.consecutiveNotFound))
    (h2 : 3 ≤ bs.consecutiveFailures ∧ relogin i = false) :
    processBatchLoop sU sS env relogin (p :: rest) i bs = bs := by
  simp only [processBatchLoop]
  rw [if_neg h1, if_pos h2]

theorem batchLoop_cons_success (sU sS : Bool) (env : Nat → SingleEnv) (relogin : Nat → Bool)
    (p : PyStr) (rest : List PyStr) (i : Nat) (bs : BatchState)
    (h1 : ¬ (sU = true ∧ 5 ≤ bs.consecutiveNotFound))
    (h2 : ¬ (3 ≤ bs.consecutiveFailures ∧ relogin i = false))
    (rc : List (PyStr × JVal)) (st2 : ProcState)
    (hout : processSinglePatentRealtime (batchMaybeRestart bs).proc p sS (env i)
      = (some rc, st2)) :
    processBatchLoop sU sS env relogin (p :: rest) i bs
      = processBatchLoop sU sS env relogin rest (i + 1)
          (batchSuccessStep p rc st2 (batchMaybeRestart bs)) := by
  simp only [processBatchLoop]
  rw [if_neg h1, if_neg h2, hout]

theorem batchLoop_cons_failure (sU sS : Bool) (env : Nat → SingleEnv) (relogin : Nat → Bool)
    (p : PyStr) (rest : List PyStr) (i : Nat) (bs : BatchState)
    (h1 : ¬ (sU = true ∧ 5 ≤ bs.consecutiveNotFound))
    (h2 : ¬ (3 ≤ bs.consecutiveFailures ∧ relogin i = false))
    (st2 : ProcState)
    (hout : processSinglePatentRealtime (batchMaybeRestart bs).proc p sS (env i)
      = (none, st2)) :
    processBatchLoop sU sS env relogin (p :: rest) i bs
      = processBatchLoop sU sS env relogin rest (i + 1)
          (batchFailureStep p st2 (batchMaybeRestart bs)) := by
  simp only [processBatchLoop]
  rw [if_neg h1, if_neg h2, hout]

theorem batchLoop_spec (sU sS : Bool) (env : Nat → SingleEnv) (relogin : Nat → Bool)
    (ps : List PyStr) :
    ∀ (i : Nat) (bs : BatchState),
      ∃ (pairs : List (PyStr × List (PyStr × JVal))) (att : List PyStr),
        (processBatchLoop sU sS env relogin ps i bs).results
            = bs.results ++ pairs.map Prod.snd
        ∧ List.Sublist (pairs.map Prod.fst) ps
        ∧ (∀ pr ∈ pairs, recPatentNo pr.2 = some (JVal.jstr pr.1))
        ∧ (processBatchLoop sU sS env relogin ps i bs).attempted = bs.attempted ++ att
        ∧ List.Sublist att ps
        ∧ ((bs.savedFile = none ∨ bs.savedFile = some bs.results) →
            ((processBatchLoop sU sS env relogin ps i bs).savedFile = none
              ∨ (processBatchLoop sU sS env relogin ps i bs).savedFile
                  = some (processBatchLoop sU sS env relogin ps i bs).results)) := by
  induction ps with
  | nil =>
    intro i bs
    exact ⟨[], [], by simp [processBatchLoop], List.nil_sublist _, by simp,
      by simp [processBatchLoop], List.nil_sublist _, fun hs => hs⟩
  | cons p rest ih =>
    intro i bs
    by_cases h1 : sU = true ∧ 5 ≤ bs.consecutiveNotFound
    · rw [batchLoop_cons_skip sU sS env relogin p rest i bs h1]
      obtain ⟨pairs, att, e1, s1, hp, e2, s2, hsv⟩ := ih (i + 1) (batchSkipStep p bs)
      exact ⟨pairs, att, e1, s1.cons p, hp, e2, s2.cons p, fun hs => hsv hs⟩
    · by_cases h2 : 3 ≤ bs.consecutiveFailures ∧ relogin i = false
      · rw [batchLoop_cons_break sU sS env relogin p rest i bs h1 h2]
        exact ⟨[], [], by simp, List.nil_sublist _, by simp, by simp,
          List.nil_sublist _, fun hs => hs⟩
      · rcases hout : processSinglePatentRealtime (batchMaybeRestart bs).proc p sS (env i)
          with ⟨orc, st2⟩
        rcases orc with _ | rc
        · rw [batchLoop_cons_failure sU sS env relogin p rest i bs h1 h2 st2 hout]
          obtain ⟨pairs, att, e1, s1, hp, e2, s2, hsv⟩ :=
            ih (i + 1) (batchFailureStep p st2 (batchMaybeRestart bs))
          have hr : (batchFailureStep p st2 (batchMaybeRestart bs)).results = bs.results := by
            show (batchMaybeRestart bs).results = bs.results
            exact batchMaybeRestart_results bs
          have ha : (batchFailureStep p st2 (batchMaybeRestart bs)).attempted
              = bs.attempted ++ [p] := by
            show (batchMaybeRestart bs).attempted ++ [p] = bs.attempted ++ [p]
            rw [batchMaybeRestart_attempted]
          have hsf : (batchFailureStep p st2 (batchMaybeRestart bs)).savedFile
              = bs.savedFile := by
            show (batchMaybeRestart bs).savedFile = bs.savedFile
            exact batchMaybeRestart_savedFile bs
          refine ⟨pairs, p :: att, ?_, s1.cons p, hp, ?_, ?_, ?_⟩
          · rw [e1, hr]
          · rw [e2, ha, List.append_assoc]
            rfl
          · exact s2.cons₂ p
          · intro hs
            exact hsv (by rw [hsf, hr]; exact hs)
        · rw [batchLoop_cons_success sU sS env relogin p rest i bs h1 h2 rc st2 hout]
          obtain ⟨pairs, att, e1, s1, hp, e2, s2, hsv⟩ :=
            ih (i + 1) (batchSuccessStep p rc st2 (batchMaybeRestart bs))
          have hr : (batchSuccessStep p rc st2 (batchMaybeRestart bs)).results
              = bs.results ++ [rc] := by
            show (batchMaybeRestart bs).results ++ [rc] = bs.results ++ [rc]
            rw [batchMaybeRestart_results]
          have ha : (batchSuccessStep p rc st2 (batchMaybeRestart bs)).attempted
              = bs.attempted ++ [p] := by
            show (batchMaybeRestart bs).attempted ++ [p] = bs.attempted ++ [p]
            rw [batchMaybeRestart_attempted]
          refine ⟨(p, rc) :: pairs, p :: att, ?_, ?_, ?_, ?_, ?_, ?_⟩
          · rw [e1, hr, List.append_assoc]
            rfl
          · simp only [List.map_cons]
            exact s1.cons₂ p
          · intro pr hpr
            rcases List.mem_cons.mp hpr with h | h
            · subst h
              exact processSingle_some_patent_no _ p sS (env i) rc st2 hout
            · exact hp pr h
          · rw [e2, ha, List.append_assoc]
            rfl
          · exact s2.cons₂ p
          · intro hs
            exact hsv (Or.inr rfl)

theorem batchLoop_skipSearch (sU : Bool) (env : Nat → SingleEnv) (relogin : Nat → Bool)
    (ps : List PyStr) :
    ∀ (i : Nat) (bs : BatchState),
      bs.proc.searchFailCount = 0 → bs.consecutiveNotFound = 0 →
      (processBatchLoop sU true env relogin ps i bs).proc.searchFailCount = 0
      ∧ (processBatchLoop sU true env relogin ps i bs).consecutiveNotFound = 0
      ∧ (processBatchLoop sU true env relogin ps i bs).unavailablePatents
          = bs.unavailablePatents := by
  induction ps with
  | nil =>
    intro i bs h1 h2
    exact ⟨h1, h2, rfl⟩
  | cons p rest ih =>
    intro i bs hsf hcnf
    have h1 : ¬ (sU = true ∧ 5 ≤ bs.consecutiveNotFound) := by
      rintro ⟨-, hge⟩
      rw [hcnf] at hge
      omega
    by_cases h2 : 3 ≤ bs.consecutiveFailures ∧ relogin i = false
    · rw [batchLoop_cons_break sU true env relogin p rest i bs h1 h2]
      exact ⟨hsf, hcnf, rfl⟩
    · rcases hout : processSinglePatentRealtime (batchMaybeRestart bs).proc p true (env i)
        with ⟨orc, st2⟩
      have hst2 : st2.searchFailCount = 0 := by
        rw [processSingle_skip_searchFail _ _ _ _ _ hout, batchMaybeRestart_proc]
        exact hsf
      rcases orc with _ | rc
      · rw [batchLoop_cons_failure sU true env relogin p rest i bs h1 h2 st2 hout]
        have hnf : (batchFailureStep p st2 (batchMaybeRestart bs)).consecutiveNotFound = 0 := by
          show (if (batchMaybeRestart bs).failedPatents.length < st2.searchFailCount then
            (batchMaybeRestart bs).consecutiveNotFound + 1 else 0) = 0
          rw [hst2, if_neg (Nat.not_lt_zero _)]
        obtain ⟨a, b, c⟩ := ih (i + 1) (batchFailureStep p st2 (batchMaybeRestart bs)) hst2 hnf
        refine ⟨a, b, ?_⟩
        rw [c]
        exact batchMaybeRestart_unavailable bs
      · rw [batchLoop_cons_success sU true env relogin p rest i bs h1 h2 rc st2 hout]
        obtain ⟨a, b, c⟩ :=
          ih (i + 1) (batchSuccessStep p rc st2 (batchMaybeRestart bs)) hst2 rfl
        refine ⟨a, b, ?_⟩
        rw [c]
        exact batchMaybeRestart_unavailable bs

theorem completedOf_eq (rs : List (List (PyStr × JVal)))
    (hw : ∀ r ∈ rs, (recPatentNo r).isSome) :
    completedOf rs = some (rs.filterMap recPatentNo) := by
  induction rs with
  | nil => rfl
  | cons r rest ih =>
    have h1 := hw r (by simp)
    rcases hv : recPatentNo r with _ | v
    · rw [hv] at h1
      simp at h1
    · simp only [completedOf, hv,
        ih (fun x hx => hw x (List.mem_cons_of_mem r hx)), List.filterMap_cons]

theorem jvalBeq_jstr_self (s : PyStr) :
    jvalBeq (JVal.jstr s) (JVal.jstr s) = true := by
  simp [jvalBeq]

theorem some_jstr_injective :
    Function.Injective (fun s : PyStr => some (JVal.jstr s)) := by
  intro a b h
  simp only [Option.some.injEq, JVal.jstr.injEq] at h
  exact h

/-- Claim C2 as amended: when the input identifier list is itself
duplicate-free and every prior record carries a `patent_no` key with
pairwise-distinct values, resumption is idempotent — only identifiers outside
the loaded `patent_no` set are ever handed to the single-patent processor, the
final collection is the prior records followed by at most one new record per
remaining identifier (each tagged with its identifier), the combined
`patent_no` column stays duplicate-free, and the last saved file (if any save
happened) is exactly the final collection. -/
theorem claim_C2_resumption_idempotent (st : ProcState) (patentList : List PyStr)
    (existing : List (List (PyStr × JVal))) (sU sS login0 : Bool)
    (env : Nat → SingleEnv) (relogin : Nat → Bool)
    (hlist : patentList.Nodup)
    (hwf : ∀ r ∈ existing, (recPatentNo r).isSome)
    (hexnd : (existing.map recPatentNo).Nodup) :
    ∃ pairs : List (PyStr × List (PyStr × JVal)),
      (processBatchRealtime st patentList (some existing) sU sS login0 env relogin).2.results
          = existing ++ pairs.map Prod.snd
      ∧ List.Sublist (pairs.map Prod.fst)
          (patentList.filter (fun p => !(pyMemStr p (existing.filterMap recPatentNo))))
      ∧ (∀ pr ∈ pairs, recPatentNo pr.2 = some (JVal.jstr pr.1))
      ∧ List.Sublist
          (processBatchRealtime st patentList (some existing) sU sS login0 env relogin).2.attempted
          (patentList.filter (fun p => !(pyMemStr p (existing.filterMap recPatentNo))))
      ∧ ((processBatchRealtime st patentList (some existing) sU sS login0 env
            relogin).2.results.map recPatentNo).Nodup
      ∧ ((processBatchRealtime st patentList (some existing) sU sS login0 env
            relogin).2.savedFile = none
          ∨ (processBatchRealtime st patentList (some existing) sU sS login0 env
              relogin).2.savedFile
            = some (processBatchRealtime st patentList (some existing) sU sS login0 env
                relogin).2.results) := by
  have hcomp : completedOf existing = some (existing.filterMap recPatentNo) :=
    completedOf_eq existing hwf
  by_cases hemp : (patentList.filter
      (fun p => !(pyMemStr p (existing.filterMap recPatentNo)))).isEmpty = true
  · have hbs : (processBatchRealtime st patentList (some existing) sU sS login0 env
        relogin).2
        = { proc := st, results := existing, failedPatents := [], unavailablePatents := [],
            consecutiveFailures := 0, consecutiveNotFound := 0, savedFile := none,
            attempted := [] } := by
      unfold processBatchRealtime
      dsimp only [Option.getD_some]
      rw [hcomp]
      dsimp only [Option.getD_some]
      rw [if_pos hemp]
    rw [hbs]
    exact ⟨[], by simp, List.nil_sublist _, by simp, List.nil_sublist _, by simpa using hexnd,
      Or.inl rfl⟩
  · by_cases hlog : login0 = false
    · have hbs : (processBatchRealtime st patentList (some existing) sU sS login0 env
          relogin).2
          = { proc := st, results := existing, failedPatents := [], unavailablePatents := [],
              consecutiveFailures := 0, consecutiveNotFound := 0, savedFile := none,
              attempted := [] } := by
        unfold processBatchRealtime
        dsimp only [Option.getD_some]
        rw [hcomp]
        dsimp only [Option.getD_some]
        rw [if_neg hemp, if_pos hlog]
      rw [hbs]
      exact ⟨[], by simp, List.nil_sublist _, by simp, List.nil_sublist _,
        by simpa using hexnd, Or.inl rfl⟩
    · have hbs : (processBatchRealtime st patentList (some existing) sU sS login0 env
          relogin).2
          = processBatchLoop sU sS env relogin
              (patentList.filter (fun p => !(pyMemStr p (existing.filterMap recPatentNo)))) 0
              { proc := st, results := existing, failedPatents := [],
                unavailablePatents := [], consecutiveFailures := 0,
                consecutiveNotFound := 0, savedFile := none, attempted := [] } := by
        unfold processBatchRealtime
        dsimp only [Option.getD_some]
        rw [hcomp]
        dsimp only [Option.getD_some]
        rw [if_neg hemp, if_neg hlog]
      obtain ⟨pairs, att, e1, s1, hp, e2, s2, hsv⟩ := batchLoop_spec sU sS env relogin
        (patentList.filter (fun p => !(pyMemStr p (existing.filterMap recPatentNo)))) 0
        { proc := st, results := existing, failedPatents := [], unavailablePatents := [],
          consecutiveFailures := 0, consecutiveNotFound := 0, savedFile := none,
          attempted := [] }
      refine ⟨pairs, ?_, s1, hp, ?_, ?_, ?_⟩
      · rw [hbs, e1]
      · rw [hbs, e2]
        simpa using s2
      · rw [hbs, e1]
        have hmap : ((existing ++ pairs.map Prod.snd).map recPatentNo)
            = existing.map recPatentNo
              ++ (pairs.map Prod.fst).map (fun s => some (JVal.jstr s)) := by
          rw [List.map_append]
          congr 1
          rw [List.map_map, List.map_map]
          refine List.map_congr_left ?_
          intro pr hpr
          simp only [Function.comp_apply]
          exact hp pr hpr
        show ((existing ++ pairs.map Prod.snd).map recPatentNo).Nodup
        rw [hmap]
        have hfnd : (patentList.filter
            (fun p => !(pyMemStr p (existing.filterMap recPatentNo)))).Nodup :=
          hlist.filter _
        have hpnd : (pairs.map Prod.fst).Nodup := List.Nodup.sublist s1 hfnd
        refine List.Nodup.append hexnd (List.Nodup.map some_jstr_injective hpnd) ?_
        intro x hxl hxr
        obtain ⟨s, hs, hgs⟩ := List.mem_map.mp hxr
        obtain ⟨r, hr, hrp⟩ := List.mem_map.mp hxl
        rw [← hgs] at hrp
        have hrem : s ∈ patentList.filter
            (fun p => !(pyMemStr p (existing.filterMap recPatentNo))) := s1.subset hs
        have hfilt := (List.mem_filter.mp hrem).2
        have hmem2 : JVal.jstr s ∈ existing.filterMap recPatentNo :=
          List.mem_filterMap.mpr ⟨r, hr, hrp⟩
        have htrue : pyMemStr s (existing.filterMap recPatentNo) = true := by
          unfold pyMemStr
          rw [List.any_eq_true]
          exact ⟨JVal.jstr s, hmem2, jvalBeq_jstr_self s⟩
        rw [htrue] at hfilt
        simp at hfilt
      · rw [hbs]
        exact hsv (Or.inl rfl)

/-- A fixed environment stream (every stage failing) used to instantiate the
batch theorems at a closed point. -/
def sampleEnv : Nat → SingleEnv := fun _ =>
  { pnkRes := none
    searchOk := false
    usedFallback := false
    tokensRes := none
    commonResp := none
    baseResp := none
    fs := { pdfsFolderExists := false, matchingFiles := fun _ => [] }
    searchDur := 0
    tokenDur := 0
    fetchDur := 0 }

/-- An environment stream whose every iteration succeeds on the fast path:
`pnk` extraction yields a token and both endpoint calls answer with minimal
successful payloads. -/
def c2Env : Nat → SingleEnv := fun _ =>
  { pnkRes := some (pyOf "k")
    searchOk := true
    usedFallback := false
    tokensRes := none
    commonResp := some ⟨200, some (JVal.jobj [(pyOf "status", JVal.jbool true),
      (pyOf "data", JVal.jobj [(pyOf "pt", JVal.jstr (pyOf "2")),
        (pyOf "an", JVal.jstr (pyOf "123"))])])⟩
    baseResp := some ⟨200, some (JVal.jobj [(pyOf "status", JVal.jbool true),
      (pyOf "data", JVal.jobj [(pyOf "bibliographicItems",
        JVal.jobj [(pyOf "in_or", JVal.jstr (pyOf "X"))])])])⟩
    fs := { pdfsFolderExists := false, matchingFiles := fun _ => [] }
    searchDur := 0
    tokenDur := 0
    fetchDur := 0 }

/-- Claim C2 (counterexample): with the identifier `A` listed twice and an
empty prior output file, both occurrences are handed to the single-patent
processor and the final collection holds two records with the same
`patent_no` — deduplication happens only against the loaded output file,
never within the input list, so the claimed no-duplicate property fails for
identifier lists with repeats. -/
theorem claim_C2_counterexample :
    ((processBatchRealtime (initRealTimeProcessorState sampleBaseState)
        [pyOf "A", pyOf "A"] (some []) true true true c2Env
        (fun _ => true)).2.results.map recPatentNo
      = [some (JVal.jstr (pyOf "A")), some (JVal.jstr (pyOf "A"))])
    ∧ (processBatchRealtime (initRealTimeProcessorState sampleBaseState)
        [pyOf "A", pyOf "A"] (some []) true true true c2Env
        (fun _ => true)).2.attempted = [pyOf "A", pyOf "A"] := ⟨rfl, rfl⟩

/-- Witness for claim C2 as amended, at a duplicate-free singleton list and an
empty prior output. -/
theorem claim_C2_resumption_idempotent_witness :
    ∃ pairs : List (PyStr × List (PyStr × JVal)),
      (processBatchRealtime (initRealTimeProcessorState sampleBaseState) [pyOf "A"]
          (some ([] : List (List (PyStr × JVal)))) true true true sampleEnv
          (fun _ => true)).2.results
          = ([] : List (List (PyStr × JVal))) ++ pairs.map Prod.snd
      ∧ List.Sublist (pairs.map Prod.fst)
          ([pyOf "A"].filter (fun p =>
            !(pyMemStr p (([] : List (List (PyStr × JVal))).filterMap recPatentNo))))
      ∧ (∀ pr ∈ pairs, recPatentNo pr.2 = some (JVal.jstr pr.1))
      ∧ List.Sublist
          (processBatchRealtime (initRealTimeProcessorState sampleBaseState) [pyOf "A"]
            (some ([] : List (List (PyStr × JVal)))) true true true sampleEnv
            (fun _ => true)).2.attempted
          ([pyOf "A"].filter (fun p =>
            !(pyMemStr p (([] : List (List (PyStr × JVal))).filterMap recPatentNo))))
      ∧ ((processBatchRealtime (initRealTimeProcessorState sampleBaseState) [pyOf "A"]
            (some ([] : List (List (PyStr × JVal)))) true true true sampleEnv
            (fun _ => true)).2.results.map recPatentNo).Nodup
      ∧ ((processBatchRealtime (initRealTimeProcessorState sampleBaseState) [pyOf "A"]
            (some ([] : List (List (PyStr × JVal)))) true true true sampleEnv
            (fun _ => true)).2.savedFile = none
          ∨ (processBatchRealtime (initRealTimeProcessorState sampleBaseState) [pyOf "A"]
              (some ([] : List (List (PyStr × JVal)))) true true true sampleEnv
              (fun _ => true)).2.savedFile
            = some (processBatchRealtime (initRealTimeProcessorState sampleBaseState)
                [pyOf "A"] (some ([] : List (List (PyStr × JVal)))) true true true sampleEnv
                (fun _ => true)).2.results) :=
  claim_C2_resumption_idempotent (initRealTimeProcessorState sampleBaseState) [pyOf "A"]
    ([] : List (List (PyStr × JVal))) true true true sampleEnv (fun _ => true)
    (by simp) (by simp) (by simp)

/-- Claim C9: with `skip_search=True` (the default), the traditional search
path is never entered, so a run that starts with a zero `search_fail_count`
ends with it still zero; consequently the not-found classification
(`search_fail_count > len(failed_patents)`) never holds, the
consecutive-not-found streak ends at zero (it is reset on every outcome), and
no identifier is ever recorded as unavailable by the five-consecutive rule —
for any identifier list, prior file, environment and re-login behavior. -/
theorem claim_C9_skip_search_counters (st : ProcState) (patentList : List PyStr)
    (fileContents : Option (List (List (PyStr × JVal)))) (sU login0 : Bool)
    (env : Nat → SingleEnv) (relogin : Nat → Bool)
    (hsf : st.searchFailCount = 0) :
    (processBatchRealtime st patentList fileContents sU true login0 env
        relogin).2.proc.searchFailCount = 0
    ∧ (processBatchRealtime st patentList fileContents sU true login0 env
        relogin).2.consecutiveNotFound = 0
    ∧ (processBatchRealtime st patentList fileContents sU true login0 env
        relogin).2.unavailablePatents = [] := by
  unfold processBatchRealtime
  dsimp only
  split
  · exact ⟨hsf, rfl, rfl⟩
  · split
    · exact ⟨hsf, rfl, rfl⟩
    · obtain ⟨a, b, c⟩ := batchLoop_skipSearch sU env relogin _ 0
        { proc := st, results := fileContents.getD [], failedPatents := [],
          unavailablePatents := [], consecutiveFailures := 0, consecutiveNotFound := 0,
          savedFile := none, attempted := [] } hsf rfl
      exact ⟨a, b, c⟩

/-- Witness for claim C9 at a closed starting state and environment. -/
theorem claim_C9_skip_search_counters_witness :
    (processBatchRealtime (initRealTimeProcessorState sampleBaseState) [pyOf "A"] none
        true true true sampleEnv (fun _ => true)).2.proc.searchFailCount = 0
    ∧ (processBatchRealtime (initRealTimeProcessorState sampleBaseState) [pyOf "A"] none
        true true true sampleEnv (fun _ => true)).2.consecutiveNotFound = 0
    ∧ (processBatchRealtime (initRealTimeProcessorState sampleBaseState) [pyOf "A"] none
        true true true sampleEnv (fun _ => true)).2.unavailablePatents = [] :=
  claim_C9_skip_search_counters (initRealTimeProcessorState sampleBaseState) [pyOf "A"]
    none true true sampleEnv (fun _ => true) rfl
